import Mathlib

/-!
Reconciler: inventory watcher and mothership HTTP handlers.

A shallow embedding of

* `pkg/scheduler/inventorywatch.go` (configuration validation, the discovery
  pass and the watch loop),
* `pkg/model/clusterstatusentity.go` (`GetKEBClusterStatus`),
* `cmd/mothership/start/http.go` (the request handlers).

Conventions of the embedding.

* A Go method with a pointer receiver that mutates it returns the receiver's
  new value next to its Go results.
* A Go `error` result is `Option GoError` (`none` is `nil`); a `(value, error)`
  pair of which exactly one is meaningful is `Except GoError value`.
* A slice of pointers is a list of options (`none` is the `nil` pointer).
* `time.Duration` is a count of nanoseconds; no arithmetic is done on it here,
  so the 64-bit range plays no role.
* A channel send is recorded by appending to the list of values sent; calls
  into collaborators (inventory, operations registry) are recorded in a trace.
* The log calls of the watcher are recorded in a trace; the one debug log call
  of the handlers (`statusChanges`) has no effect on the response and is left
  out.
* Collaborators whose code is outside the embedded files (the inventory, the
  operations registry, request parameter lookup, JSON coding,
  `time.ParseDuration`, the error classifiers, the string constants of other
  packages) are parameters.
-/

namespace Reconciler

/-- Go error value: its dynamic type name and its message. -/
structure GoError where
  typ : String
  msg : String
deriving DecidableEq, Repr

namespace errors

/-- Go `errors.New`; `fmt.Errorf` without a wrapped error builds the same kind of
value from its formatted message. -/
def New (msg : String) : GoError := ⟨"*errors.errorString", msg⟩

/-- Go `errors.Wrap` of `github.com/pkg/errors`: a new error whose message is
the given message, a colon and the message of the wrapped error. -/
def Wrap (err : GoError) (message : String) : GoError :=
  ⟨"*errors.withStack", message ++ ": " ++ err.msg⟩

end errors

namespace time

/-- Go `time.Duration`: nanoseconds. -/
abbrev Duration := Int

/-- Go `time.Time`, as an instant in nanoseconds. -/
abbrev Time := Int

def Nanosecond : Duration := 1
def Microsecond : Duration := 1000 * Nanosecond
def Millisecond : Duration := 1000 * Microsecond
def Second : Duration := 1000 * Millisecond
def Minute : Duration := 60 * Second
def Hour : Duration := 60 * Minute

end time

namespace model

/-- Go `model.Status`, a string type. -/
abbrev Status := String

/-- Go `model.ClusterStatusEntity`. -/
structure ClusterStatusEntity where
  ID : Int
  Cluster : String
  ClusterVersion : Int
  ConfigVersion : Int
  Status : Status
  Created : time.Time
deriving DecidableEq, Repr

/-- The fields of `model.ClusterEntity` that the embedded code reads. -/
structure ClusterEntity where
  Cluster : String
  Version : Int
deriving DecidableEq, Repr

/-- The fields of `model.ClusterConfigurationEntity` that the embedded code reads. -/
structure ClusterConfigurationEntity where
  Version : Int
deriving DecidableEq, Repr

end model

namespace cluster

/-- Go `cluster.State`. -/
structure State where
  Cluster : model.ClusterEntity
  Configuration : model.ClusterConfigurationEntity
  Status : model.ClusterStatusEntity
deriving DecidableEq, Repr

/-- Go `cluster.StatusChange`. -/
structure StatusChange where
  Status : model.ClusterStatusEntity
  Duration : time.Duration
deriving DecidableEq, Repr

/-- Go interface `cluster.Inventory`, restricted to the methods the embedded code
calls. The first argument of `ClustersToReconcile` is the number of queries
answered before this one, so that the answer may change from one tick to the
next. -/
structure Inventory where
  ClustersToReconcile : Nat → time.Duration → Except GoError (List (Option State))
  Get : String → Int → Except GoError State
  GetLatest : String → Except GoError State
  StatusChanges : String → time.Duration → Except GoError (List StatusChange)

end cluster

namespace scheduler

def defaultWatchInterval : time.Duration := 1 * time.Minute

def defaultClusterReconcileInterval : time.Duration := 15 * time.Minute

/-- Go `scheduler.InventoryWatchConfig`. -/
structure InventoryWatchConfig where
  WatchInterval : time.Duration
  ClusterReconcileInterval : time.Duration
deriving DecidableEq, Repr

/-- Go `(*InventoryWatchConfig).validate`: the configuration after the call and
the error returned. -/
def InventoryWatchConfig.validate (wc : InventoryWatchConfig) :
    InventoryWatchConfig × Option GoError :=
  if wc.WatchInterval < 0 then
    (wc, some (errors.New "watch interval cannot cannot be < 0"))
  else
    let wc1 : InventoryWatchConfig :=
      if wc.WatchInterval = 0 then { wc with WatchInterval := defaultWatchInterval } else wc
    if wc1.ClusterReconcileInterval < 0 then
      (wc1, some (errors.New "cluster reconciliation interval cannot cannot be < 0"))
    else
      let wc2 : InventoryWatchConfig :=
        if wc1.ClusterReconcileInterval = 0 then
          { wc1 with ClusterReconcileInterval := defaultClusterReconcileInterval }
        else wc1
      (wc2, none)

/-- Go `scheduler.DefaultInventoryWatcher` (the logger is represented by the log
trace of `RunState`). -/
structure DefaultInventoryWatcher where
  inventory : cluster.Inventory
  config : InventoryWatchConfig

/-- Go `scheduler.NewInventoryWatch`. `NewLogger` stands for `logger.NewLogger`.
Returns the watcher or the error, and the configuration behind the `config`
pointer after the call. -/
def NewInventoryWatch (NewLogger : Bool → Option GoError) (inventory : cluster.Inventory)
    (debug : Bool) (config : InventoryWatchConfig) :
    Except GoError DefaultInventoryWatcher × InventoryWatchConfig :=
  match NewLogger debug with
  | some err => (.error err, config)
  | none =>
    match config.validate with
    | (config1, some err) => (.error err, config1)
    | (config1, none) => (.ok { inventory := inventory, config := config1 }, config1)

/-- Go `(*DefaultInventoryWatcher).Inventory`. -/
def DefaultInventoryWatcher.Inventory (w : DefaultInventoryWatcher) : cluster.Inventory :=
  w.inventory

/-- The log calls of the watcher, one constructor per call site. -/
inductive LogEntry where
  | startWatching (watchInterval : time.Duration)
  | fetchError (reconcileInterval : time.Duration) (err : GoError)
  | found (n : Nat)
  | nilClusterState
  | adding (clusterName : String)
  | stopping
deriving DecidableEq, Repr

/-- What a run of the watcher has done so far: the arguments of the
`ClustersToReconcile` calls, the values sent on the queue, the log. -/
structure RunState where
  queries : List time.Duration
  queue : List cluster.State
  logs : List LogEntry
deriving DecidableEq, Repr

/-- The `for _, clusterState := range clusterStates` loop of
`processClustersToReconcile`. -/
def pushClusterStates (s : RunState) : List (Option cluster.State) → RunState
  | [] => s
  | none :: rest =>
    pushClusterStates { s with logs := s.logs ++ [LogEntry.nilClusterState] } rest
  | some clusterState :: rest =>
    pushClusterStates
      { s with
        logs := s.logs ++ [LogEntry.adding clusterState.Cluster.Cluster]
        queue := s.queue ++ [clusterState] } rest

/-- Go `(*DefaultInventoryWatcher).processClustersToReconcile`. -/
def DefaultInventoryWatcher.processClustersToReconcile (w : DefaultInventoryWatcher)
    (s : RunState) : RunState :=
  let s1 : RunState := { s with queries := s.queries ++ [w.config.ClusterReconcileInterval] }
  match w.inventory.ClustersToReconcile s.queries.length w.config.ClusterReconcileInterval with
  | .error err =>
    { s1 with logs := s1.logs ++ [LogEntry.fetchError w.config.ClusterReconcileInterval err] }
  | .ok clusterStates =>
    pushClusterStates
      { s1 with logs := s1.logs ++ [LogEntry.found clusterStates.length] } clusterStates

/-- What one evaluation of the `select` of `Run` receives. -/
inductive Event where
  | ctxDone
  | tick
deriving DecidableEq, Repr

/-- How a call of `Run` ends: `time.NewTicker` panics on a non-positive
interval, the loop waits forever when no further event arrives, or `Run`
returns its error result. -/
inductive RunOutcome where
  | panicked
  | blocked
  | returned (err : Option GoError)
deriving DecidableEq, Repr

/-- The `for { select { ... } }` loop of `Run`, driven by the events received. -/
def DefaultInventoryWatcher.runLoop (w : DefaultInventoryWatcher) :
    List Event → RunState → RunOutcome × RunState
  | [], s => (RunOutcome.blocked, s)
  | Event.ctxDone :: _, s =>
    (RunOutcome.returned none, { s with logs := s.logs ++ [LogEntry.stopping] })
  | Event.tick :: rest, s => w.runLoop rest (w.processClustersToReconcile s)

/-- Go `(*DefaultInventoryWatcher).Run`. -/
def DefaultInventoryWatcher.Run (w : DefaultInventoryWatcher) (events : List Event)
    (s : RunState) : RunOutcome × RunState :=
  if w.config.WatchInterval ≤ 0 then (RunOutcome.panicked, s)
  else
    let s1 : RunState :=
      { s with logs := s.logs ++ [LogEntry.startWatching w.config.WatchInterval] }
    w.runLoop events (w.processClustersToReconcile s1)

end scheduler

namespace keb

/-- Go `keb.ClusterStatus`, a string type. -/
abbrev ClusterStatus := String

/-- The string constants of package `keb` that `GetKEBClusterStatus` returns;
their declarations are outside the embedded files, so their values are
parameters. -/
structure ClusterStatusConsts where
  ClusterStatusPending : ClusterStatus
  ClusterStatusReconciling : ClusterStatus
  ClusterStatusReady : ClusterStatus
  ClusterStatusError : ClusterStatus
deriving DecidableEq, Repr

/-- Go `keb.StatusChange`. -/
structure StatusChange where
  Started : time.Time
  Duration : time.Duration
  Status : ClusterStatus
deriving DecidableEq, Repr

/-- Go `keb.HTTPClusterStatusResponse`. -/
structure HTTPClusterStatusResponse where
  StatusChanges : List StatusChange
deriving DecidableEq, Repr

/-- Go `keb.HTTPClusterResponse`. -/
structure HTTPClusterResponse where
  Cluster : String
  ClusterVersion : Int
  ConfigurationVersion : Int
  Status : ClusterStatus
  StatusURL : String
deriving DecidableEq, Repr

end keb

namespace model

/-- The `ClusterStatus...` constants of package `model` that
`GetKEBClusterStatus` switches on; their declarations are outside the embedded
files, so their values are parameters. -/
structure ClusterStatusConsts where
  ClusterStatusReconcilePending : Status
  ClusterStatusReconcileFailed : Status
  ClusterStatusReconciling : Status
  ClusterStatusReady : Status
  ClusterStatusError : Status
deriving DecidableEq, Repr

/-- Go `(*ClusterStatusEntity).GetKEBClusterStatus`; the cases of the `switch` are
tried in source order. -/
def ClusterStatusEntity.GetKEBClusterStatus (m : ClusterStatusConsts)
    (k : keb.ClusterStatusConsts) (c : ClusterStatusEntity) : Except GoError keb.ClusterStatus :=
  if c.Status = m.ClusterStatusReconcilePending then .ok k.ClusterStatusPending
  else if c.Status = m.ClusterStatusReconcileFailed then .ok k.ClusterStatusReconciling
  else if c.Status = m.ClusterStatusReconciling then .ok k.ClusterStatusReconciling
  else if c.Status = m.ClusterStatusReady then .ok k.ClusterStatusReady
  else if c.Status = m.ClusterStatusError then .ok k.ClusterStatusError
  else
    .error (errors.New
      ("cluster status \x27" ++ c.Status ++ "\x27 not convertable to KEB cluster status"))

end model

namespace reconciler

/-- Go `reconciler.HTTPErrorResponse`. -/
structure HTTPErrorResponse where
  Error : String
deriving DecidableEq, Repr

/-- The field of `reconciler.CallbackMessage` that the embedded code reads. -/
structure CallbackMessage where
  Status : String
deriving DecidableEq, Repr

/-- The status constants of package `reconciler` that `operationCallback`
switches on; their declarations are outside the embedded files, so their values
are parameters. -/
structure StatusConsts where
  NotStarted : String
  Running : String
  Success : String
  Error : String
deriving DecidableEq, Repr

end reconciler

namespace http

def StatusOK : Nat := 200
def StatusBadRequest : Nat := 400
def StatusNotFound : Nat := 404
def StatusInternalServerError : Nat := 500

/-- A value written to the response body. -/
inductive Payload where
  | errorResponse (r : reconciler.HTTPErrorResponse)
  | clusterResponse (r : keb.HTTPClusterResponse)
  | clusterStatusResponse (r : keb.HTTPClusterStatusResponse)
  | text (s : String)
deriving DecidableEq, Repr

/-- Go `http.ResponseWriter`: the `Header().Set` calls, the status code once the
header is written, the body written. -/
structure ResponseWriter where
  header : List (String × String)
  code : Option Nat
  body : List Payload
deriving DecidableEq, Repr

/-- A response writer nothing was written to. -/
def ResponseWriter.fresh : ResponseWriter := ⟨[], none, []⟩

def ResponseWriter.HeaderSet (w : ResponseWriter) (key value : String) : ResponseWriter :=
  { w with header := w.header ++ [(key, value)] }

/-- Go `WriteHeader`: only the first call sets the status code. -/
def ResponseWriter.WriteHeader (w : ResponseWriter) (statusCode : Nat) : ResponseWriter :=
  match w.code with
  | none => { w with code := some statusCode }
  | some _ => w

/-- Go `Write`: writes the header with `StatusOK` first when it is unwritten. -/
def ResponseWriter.Write (w : ResponseWriter) (p : Payload) : ResponseWriter :=
  { w.WriteHeader StatusOK with body := w.body ++ [p] }

/-- The status code the client receives once the handler has returned. -/
def ResponseWriter.statusCode (w : ResponseWriter) : Nat :=
  w.code.getD StatusOK

/-- Go `http.Error`. -/
def Error (w : ResponseWriter) (error : String) (code : Nat) : ResponseWriter :=
  let w1 := w.HeaderSet "Content-Type" "text/plain; charset=utf-8"
  let w2 := w1.HeaderSet "X-Content-Type-Options" "nosniff"
  (w2.WriteHeader code).Write (Payload.text error)

end http

namespace server

/-- Go `string`, named apart from the method `String` of `Params`. -/
abbrev GoString := String

/-- Go `server.Params` as the handlers use it. -/
structure Params where
  String : GoString → Except GoError GoString
  Int64 : GoString → Except GoError Int

end server

namespace cmd

open http

def paramContractVersion : String := "contractVersion"
def paramCluster : String := "cluster"
def paramConfigVersion : String := "configVersion"
def paramOffset : String := "offset"
def paramSchedulingID : String := "schedulingID"
def paramCorrelationID : String := "correlationID"

/-- What the handlers read of a `*http.Request`: `Params` is
`server.NewParams(r)`, `Body` is the result of `ioutil.ReadAll(r.Body)`. -/
structure Request where
  Host : String
  RequestURI : String
  Body : Except GoError String
  Params : server.Params

/-- The operations registry interface. -/
structure OperationsRegistry where
  SetInProgress : String → String → Option GoError
  SetDone : String → String → Option GoError
  SetError : String → String → String → Option GoError

/-- What the handlers use of `o.Registry`. -/
structure Registry where
  Inventory : cluster.Inventory
  OperationsRegistry : OperationsRegistry

/-- What the handlers use of `*Options`. -/
structure Options where
  Registry : Registry

/-- Library functions and constants of other packages that the handlers use. -/
structure Env where
  reconcilerStatus : reconciler.StatusConsts
  modelStatus : model.ClusterStatusConsts
  kebStatus : keb.ClusterStatusConsts
  ParseDuration : String → Except GoError time.Duration
  Unmarshal : String → Except GoError reconciler.CallbackMessage
  MarshalError : Payload → Option GoError
  IsNotFoundError : GoError → Bool
  IsOperationNotFoundError : GoError → Bool

/-- A call of a method of the inventory. -/
inductive InventoryCall where
  | Get (clusterName : String) (configVersion : Int)
  | GetLatest (clusterName : String)
  | StatusChanges (clusterName : String) (offset : time.Duration)
deriving DecidableEq, Repr

/-- A call of a method of the operations registry. -/
inductive RegistryCall where
  | SetInProgress (correlationID schedulingID : String)
  | SetDone (correlationID schedulingID : String)
  | SetError (correlationID schedulingID reason : String)
deriving DecidableEq, Repr

/-- What the operations registry returns for a call. -/
def OperationsRegistry.answer (reg : OperationsRegistry) : RegistryCall → Option GoError
  | RegistryCall.SetInProgress correlationID schedulingID =>
    reg.SetInProgress correlationID schedulingID
  | RegistryCall.SetDone correlationID schedulingID => reg.SetDone correlationID schedulingID
  | RegistryCall.SetError correlationID schedulingID reason =>
    reg.SetError correlationID schedulingID reason

/-- What a handler has done when it returns: the response writer, and the calls
it made of the inventory and of the operations registry, in order. -/
structure Exchange where
  w : ResponseWriter
  inventoryCalls : List InventoryCall
  registryCalls : List RegistryCall
deriving DecidableEq, Repr

/-- Go `json.NewEncoder(w).Encode(v)`: the value is marshalled first and written
only when that succeeds. -/
def jsonEncode (env : Env) (w : ResponseWriter) (v : Payload) : ResponseWriter × Option GoError :=
  match env.MarshalError v with
  | some err => (w, some err)
  | none => (w.Write v, none)

/-- Go `sendError`, for a `response` that is an `error` (every call site). -/
def sendError (env : Env) (w : ResponseWriter) (httpCode : Nat) (err : GoError) : ResponseWriter :=
  let response := Payload.errorResponse { Error := err.msg }
  let w1 := w.WriteHeader httpCode
  let w2 := w1.HeaderSet "content-type" "application/json"
  match jsonEncode env w2 response with
  | (w3, some _) =>
    http.Error (w3.WriteHeader StatusInternalServerError)
      "Failed to encode response payload to JSON" StatusInternalServerError
  | (w3, none) => w3

/-- Go `newClusterResponse`. -/
def newClusterResponse (env : Env) (r : Request) (clusterState : cluster.State) :
    Except GoError keb.HTTPClusterResponse :=
  match clusterState.Status.GetKEBClusterStatus env.modelStatus env.kebStatus with
  | .error err => .error err
  | .ok kebStatus =>
    .ok {
      Cluster := clusterState.Cluster.Cluster
      ClusterVersion := clusterState.Cluster.Version
      ConfigurationVersion := clusterState.Configuration.Version
      Status := kebStatus
      StatusURL := r.Host ++ r.RequestURI ++ "/" ++ clusterState.Cluster.Cluster ++ "/configs/"
        ++ toString clusterState.Configuration.Version ++ "/status" }

/-- Go `sendResponse`. -/
def sendResponse (env : Env) (w : ResponseWriter) (r : Request) (clusterState : cluster.State) :
    ResponseWriter :=
  match newClusterResponse env r clusterState with
  | .error err =>
    sendError env w 500 (errors.Wrap err "failed to generate cluster response model")
  | .ok respModel =>
    let w1 := w.HeaderSet "content-type" "application/json"
    match jsonEncode env w1 (Payload.clusterResponse respModel) with
    | (w2, some err) =>
      sendError env w2 StatusInternalServerError
        (errors.Wrap err "Failed to encode response payload to JSON")
    | (w2, none) => w2

/-- Go `getCluster`. -/
def getCluster (env : Env) (o : Options) (w : ResponseWriter) (r : Request) : Exchange :=
  let params := r.Params
  match params.String paramCluster with
  | .error err => ⟨sendError env w StatusBadRequest err, [], []⟩
  | .ok clusterName =>
    match params.Int64 paramConfigVersion with
    | .error err => ⟨sendError env w StatusBadRequest err, [], []⟩
    | .ok configVersion =>
      let calls := [InventoryCall.Get clusterName configVersion]
      match o.Registry.Inventory.Get clusterName configVersion with
      | .error err =>
        let httpCode :=
          if env.IsNotFoundError err then StatusNotFound else StatusInternalServerError
        ⟨sendError env w httpCode (errors.Wrap err "Could not retrieve cluster state"), calls, []⟩
      | .ok clusterState => ⟨sendResponse env w r clusterState, calls, []⟩

/-- Go `getLatestCluster`. -/
def getLatestCluster (env : Env) (o : Options) (w : ResponseWriter) (r : Request) : Exchange :=
  let params := r.Params
  match params.String paramCluster with
  | .error err => ⟨sendError env w StatusBadRequest err, [], []⟩
  | .ok clusterName =>
    let calls := [InventoryCall.GetLatest clusterName]
    match o.Registry.Inventory.GetLatest clusterName with
    | .error err =>
      let httpCode :=
        if env.IsNotFoundError err then StatusNotFound else StatusInternalServerError
      ⟨sendError env w httpCode (errors.Wrap err "Could not retrieve cluster state"), calls, []⟩
    | .ok clusterState => ⟨sendResponse env w r clusterState, calls, []⟩

/-- The `for _, statusChange := range statusChanges` loop of `statusChanges`:
the entries appended to `resp.StatusChanges`, or the first mapping error. -/
def statusChangesLoop (env : Env) :
    List cluster.StatusChange → List keb.StatusChange → Except GoError (List keb.StatusChange)
  | [], resp => .ok resp
  | statusChange :: rest, resp =>
    match statusChange.Status.GetKEBClusterStatus env.modelStatus env.kebStatus with
    | .error err => .error err
    | .ok kebClusterStatus =>
      statusChangesLoop env rest
        (resp ++ [{ Started := statusChange.Status.Created
                    Duration := statusChange.Duration
                    Status := kebClusterStatus }])

/-- The entry of the response that belongs to a status change: its status is
the mapped status of the change, `Started` is the creation time of the change
and `Duration` its duration. -/
def EntryOf (env : Env) (statusChange : cluster.StatusChange) (entry : keb.StatusChange) : Prop :=
  statusChange.Status.GetKEBClusterStatus env.modelStatus env.kebStatus = Except.ok entry.Status ∧
    entry.Started = statusChange.Status.Created ∧ entry.Duration = statusChange.Duration

/-- The value of `offset` in `statusChanges` before it is parsed: the request
parameter, or `fmt.Sprintf("%dh", 24*7)` when looking it up fails. -/
def offsetOrDefault (params : server.Params) : String :=
  match params.String paramOffset with
  | .error _ => toString (24 * 7 : Int) ++ "h"
  | .ok offset => offset

/-- Go `statusChanges`. -/
def statusChanges (env : Env) (o : Options) (w : ResponseWriter) (r : Request) : Exchange :=
  let params := r.Params
  match params.String paramCluster with
  | .error err => ⟨sendError env w StatusBadRequest err, [], []⟩
  | .ok clusterName =>
    let offset := offsetOrDefault params
    match env.ParseDuration offset with
    | .error err => ⟨sendError env w StatusBadRequest err, [], []⟩
    | .ok duration =>
      let calls := [InventoryCall.StatusChanges clusterName duration]
      match o.Registry.Inventory.StatusChanges clusterName duration with
      | .error err =>
        let httpCode :=
          if env.IsNotFoundError err then StatusNotFound else StatusInternalServerError
        ⟨sendError env w httpCode (errors.Wrap err "Could not retrieve cluster statusChanges"),
          calls, []⟩
      | .ok statusChanges =>
        match statusChangesLoop env statusChanges [] with
        | .error err =>
          ⟨sendError env w StatusInternalServerError
            (errors.Wrap err
              "Failed to map reconciler internal cluster status to KEB cluster status"),
            calls, []⟩
        | .ok entries =>
          let resp : keb.HTTPClusterStatusResponse := { StatusChanges := entries }
          let w1 := w.HeaderSet "content-type" "application/json"
          match jsonEncode env w1 (Payload.clusterStatusResponse resp) with
          | (w2, some err) =>
            ⟨sendError env w2 StatusInternalServerError
              (errors.Wrap err "Failed to encode cluster statusChanges response"), calls, []⟩
          | (w2, none) => ⟨w2, calls, []⟩

/-- The `switch body.Status` of `operationCallback`: the registry call made, if
any, and the value of `err` afterwards (it is `nil` before the switch). -/
def callbackTransition (env : Env) (o : Options) (status correlationID schedulingID : String) :
    Option GoError × List RegistryCall :=
  if status = env.reconcilerStatus.NotStarted ∨ status = env.reconcilerStatus.Running then
    (o.Registry.OperationsRegistry.SetInProgress correlationID schedulingID,
      [RegistryCall.SetInProgress correlationID schedulingID])
  else if status = env.reconcilerStatus.Success then
    (o.Registry.OperationsRegistry.SetDone correlationID schedulingID,
      [RegistryCall.SetDone correlationID schedulingID])
  else if status = env.reconcilerStatus.Error then
    (o.Registry.OperationsRegistry.SetError correlationID schedulingID
        "Reconciler reported error status",
      [RegistryCall.SetError correlationID schedulingID "Reconciler reported error status"])
  else (none, [])

/-- Go `operationCallback`. -/
def operationCallback (env : Env) (o : Options) (w : ResponseWriter) (r : Request) : Exchange :=
  let params := r.Params
  match params.String paramSchedulingID with
  | .error err => ⟨sendError env w StatusBadRequest err, [], []⟩
  | .ok schedulingID =>
    match params.String paramCorrelationID with
    | .error err => ⟨sendError env w StatusBadRequest err, [], []⟩
    | .ok correlationID =>
      match r.Body with
      | .error err =>
        ⟨sendError env w StatusInternalServerError
          (errors.Wrap err "Failed to read received JSON payload"), [], []⟩
      | .ok reqBody =>
        match env.Unmarshal reqBody with
        | .error err =>
          ⟨sendError env w StatusBadRequest
            (errors.Wrap err "Failed to unmarshal JSON payload"), [], []⟩
        | .ok body =>
          if body.Status = "" then
            ⟨sendError env w StatusBadRequest
              (errors.New "status not provided in payload"), [], []⟩
          else
            match callbackTransition env o body.Status correlationID schedulingID with
            | (some err, calls) =>
              let httpCode :=
                if env.IsOperationNotFoundError err then StatusNotFound else StatusBadRequest
              ⟨sendError env w httpCode err, [], calls⟩
            | (none, calls) => ⟨w, [], calls⟩

end cmd

namespace strings

/-- Go `strings.Split(s, sep)` for a separator of one character, on the
characters of `s`: the pieces between the separators, in order; there is one
piece more than there are separators, so the result is never empty. -/
def splitChars (sep : Char) : List Char → List (List Char)
  | [] => [[]]
  | c :: cs =>
    if c = sep then [] :: splitChars sep cs
    else
      match splitChars sep cs with
      | [] => [[c]]
      | token :: tokens => (c :: token) :: tokens

/-- Go `strings.Split(s, sep)` for a separator of one character. -/
def Split (s : String) (sep : Char) : List String :=
  (splitChars sep s.toList).map String.mk

end strings

namespace chart

/-- A Go `interface{}` stored in a `map[string]interface{}` that
`convertToNestedMap` builds: the value handed in by the caller, or a map, held
by reference (its address on the heap). -/
inductive Entry (α : Type) where
  | value (v : α)
  | mapRef (addr : Nat)
deriving DecidableEq, Repr

/-- A Go `map[string]interface{}`: its entries, one per key. -/
abbrev GoMap (α : Type) := List (String × Entry α)

/-- Go `m[key] = e`: the entry of `key` is replaced or added. -/
def GoMap.store {α : Type} (m : GoMap α) (key : String) (e : Entry α) : GoMap α :=
  m.filter (fun p => p.1 != key) ++ [(key, e)]

/-- Go `m[key]`. -/
def GoMap.load {α : Type} (m : GoMap α) (key : String) : Option (Entry α) :=
  List.lookup key m

/-- The maps allocated so far; the address of a map is its position. -/
abbrev Heap (α : Type) := List (GoMap α)

/-- Go `make(map[string]interface{})`: the heap with a new empty map, and the
address of that map. -/
def Heap.make {α : Type} (heap : Heap α) : Heap α × Nat :=
  (heap ++ [[]], heap.length)

/-- Go `m[key] = e` for the map at `addr`; `none` when there is no such map. -/
def Heap.store {α : Type} (heap : Heap α) (addr : Nat) (key : String) (e : Entry α) :
    Option (Heap α) :=
  match heap[addr]? with
  | some m => some (heap.set addr (GoMap.store m key e))
  | none => none

/-- Go `m[key]` for the map at `addr`. -/
def Heap.load {α : Type} (heap : Heap α) (addr : Nat) (key : String) : Option (Entry α) :=
  match heap[addr]? with
  | some m => GoMap.load m key
  | none => none

/-- The `for depth, token := range tokens` loop of `convertToNestedMap`, from
`depth` on, over the tokens not yet visited; `len` is `len(tokens)`. The result
is the heap and `lastNestedMap` after the loop, or `none` when the type
assertion `lastNestedMap[token].(map[string]interface{})` panics. -/
def nestLoop {α : Type} (value : α) (len : Nat) :
    Nat → List String → Heap α → Nat → Option (Heap α × Nat)
  | _, [], heap, lastNestedMap => some (heap, lastNestedMap)
  | depth, token :: rest, heap, lastNestedMap =>
    if (depth : Int) = (len : Int) - 1 then
      match heap.store lastNestedMap token (Entry.value value) with
      | none => none
      | some heap1 => nestLoop value len (depth + 1) rest heap1 lastNestedMap
    else
      match (Heap.make heap).1.store lastNestedMap token (Entry.mapRef (Heap.make heap).2) with
      | none => none
      | some heap2 =>
        match heap2.load lastNestedMap token with
        | some (Entry.mapRef child) => nestLoop value len (depth + 1) rest heap2 child
        | _ => none

/-- Go `(*Component).convertToNestedMap` (the receiver is not used): the heap
that holds the maps built, and the address of the map returned. -/
def convertToNestedMap {α : Type} (key : String) (value : α) : Option (Heap α × Nat) :=
  let result := (Heap.make ([] : Heap α)).2
  let tokens := strings.Split key '.'
  match nestLoop value tokens.length 0 tokens (Heap.make ([] : Heap α)).1 result with
  | none => none
  | some (heap, _) => some (heap, result)

/-- The map at the address is the first of a chain of maps of exactly one entry
each along the tokens: the entry of each map but the last is the next map
under the next token, the entry of the last map is `value` under the last
token. -/
def IsChain {α : Type} (heap : Heap α) (value : α) : Nat → List String → Prop
  | _, [] => False
  | addr, [token] => heap[addr]? = some [(token, Entry.value value)]
  | addr, token :: next :: rest =>
    ∃ child, heap[addr]? = some [(token, Entry.mapRef child)] ∧
      IsChain heap value child (next :: rest)

/-- Go `m[t1][t2]...[tn]` for the map `m` at the address: each lookup but the
last must yield a map. -/
def lookupPath {α : Type} (heap : Heap α) : Nat → List String → Option (Entry α)
  | _, [] => none
  | addr, [token] => heap.load addr token
  | addr, token :: next :: rest =>
    match heap.load addr token with
    | some (Entry.mapRef child) => lookupPath heap child (next :: rest)
    | _ => none

/-- The number of entries of each map that `lookupPath` visits. -/
def pathSizes {α : Type} (heap : Heap α) : Nat → List String → List Nat
  | _, [] => []
  | addr, [_] => [(heap.getD addr []).length]
  | addr, token :: next :: rest =>
    (heap.getD addr []).length ::
      match heap.load addr token with
      | some (Entry.mapRef child) => pathSizes heap child (next :: rest)
      | _ => []

end chart

namespace progress

/-- The target conditions of `Watch` that the test names. -/
inductive State where
  | ReadyState
  | TerminatedState
deriving DecidableEq, Repr

/-- What one fetch of a target shows: the classification of the object by the
readiness strategy of its kind, that the object is not found, or that the
fetch failed for another reason. -/
inductive Observation where
  | ready
  | notReady
  | terminated
  | notFound
  | fetchFailed
deriving DecidableEq, Repr

/-- A registered target: kind, namespace and name. -/
structure Target where
  kind : String
  nameSpace : String
  name : String
deriving DecidableEq, Repr

/-- Go `progress.Config` as the test builds it. -/
structure Config where
  Interval : time.Duration
  Timeout : time.Duration
deriving DecidableEq, Repr

/-- A progress tracker with its registered targets. -/
structure Tracker where
  config : Config
  targets : List Target
deriving DecidableEq, Repr

/-- What one evaluation of the wait of `Watch` receives: the poll interval
elapsed, the cancellation signal of the caller fired (cancelled or deadline
expired), or the configured timeout elapsed. -/
inductive WatchEvent where
  | tick
  | ctxDone
  | timeout
deriving DecidableEq, Repr

/-- How a call of `Watch` ends: it waits forever when no further event arrives,
or it returns its error result. -/
inductive WatchOutcome where
  | blocked
  | returned (err : Option GoError)
deriving DecidableEq, Repr

/-- The error type `ContextClosedError` of package `error`, which the test
expects of `Watch`. -/
def ContextClosedError (message : String) : GoError :=
  ⟨"*error.ContextClosedError", message⟩

/-- Modelled from the spec: when a target satisfies the target condition, which
belongs to `Tracker.Watch` of package `progress` (its code is not among the
source files, only its test is). For a Ready watch the readiness strategy
reports ready; for a Terminated watch the fetch reports not found or the
strategy reports terminated; a failed fetch leaves the target pending. -/
def satisfies : State → Observation → Bool
  | State.ReadyState, Observation.ready => true
  | State.TerminatedState, Observation.notFound => true
  | State.TerminatedState, Observation.terminated => true
  | _, _ => false

/-- Modelled from the spec: one poll of `Tracker.Watch` (its code is not among
the source files): every still-pending target is fetched, and those that
satisfy the target condition are no longer pending. -/
def pollPending (targetState : State) (observe : Target → Observation)
    (pending : List Target) : List Target :=
  pending.filter (fun target => !(satisfies targetState (observe target)))

/-- Modelled from the spec: the polling loop of `Tracker.Watch` (its code is not
among the source files), driven by the events received; `observe n` is what
poll number `n` fetches. A tick polls and returns success as soon as no target
is pending; the cancellation signal or the timeout, with targets pending,
ends the watch with a `ContextClosedError`. -/
def watchLoop (targetState : State) (observe : Nat → Target → Observation) :
    Nat → List WatchEvent → List Target → WatchOutcome
  | _, [], _ => WatchOutcome.blocked
  | _, WatchEvent.ctxDone :: _, _ =>
    WatchOutcome.returned (some (ContextClosedError "context closed"))
  | _, WatchEvent.timeout :: _, _ =>
    WatchOutcome.returned (some (ContextClosedError "deadline exceeded"))
  | n, WatchEvent.tick :: rest, pending =>
    if (pollPending targetState (observe n) pending).isEmpty then WatchOutcome.returned none
    else watchLoop targetState observe (n + 1) rest (pollPending targetState (observe n) pending)

/-- Modelled from the spec: `Tracker.Watch` of package `progress` (its code is
not among the source files, only its test is). One poll is made before the
deadline is evaluated; the watch succeeds at once when no target is pending
after it, and goes on with the polling loop otherwise. -/
def Tracker.Watch (pt : Tracker) (observe : Nat → Target → Observation)
    (events : List WatchEvent) (targetState : State) : WatchOutcome :=
  if (pollPending targetState (observe 0) pt.targets).isEmpty then WatchOutcome.returned none
  else watchLoop targetState observe 1 events (pollPending targetState (observe 0) pt.targets)

end progress

/-! ## Concrete inputs -/

namespace Sample

/-- A cluster state of the given name, in configuration version 1. -/
def state (name : String) : cluster.State :=
  { Cluster := { Cluster := name, Version := 1 }
    Configuration := { Version := 1 }
    Status := { ID := 1, Cluster := name, ClusterVersion := 1, ConfigVersion := 1,
                Status := "ready", Created := 0 } }

/-- An inventory whose first query fails and whose later queries answer two
clusters with a nil entry between them. -/
def inventory : cluster.Inventory :=
  { ClustersToReconcile := fun n _ =>
      if n = 0 then .error (errors.New "connection refused")
      else .ok [some (state "a"), none, some (state "b")]
    Get := fun _ _ => .error (errors.New "not found")
    GetLatest := fun _ => .error (errors.New "not found")
    StatusChanges := fun _ _ => .error (errors.New "not found") }

/-- A watcher over `inventory` with the default intervals. -/
def watcher : scheduler.DefaultInventoryWatcher :=
  { inventory := inventory
    config := { WatchInterval := 60000000000, ClusterReconcileInterval := 900000000000 } }

/-- The state of a run before anything happened. -/
def start : scheduler.RunState := { queries := [], queue := [], logs := [] }

/-- The state of a run after one query. -/
def afterOne : scheduler.RunState :=
  { queries := [900000000000], queue := [], logs := [] }

/-- Sample values of the constants of packages `reconciler`, `model` and `keb`,
sample error classifiers (by the error type name), a JSON decoder that takes the
body text as the status, an encoder that never fails, and a duration parser
that knows two inputs. -/
def env : cmd.Env :=
  { reconcilerStatus :=
      { NotStarted := "notstarted", Running := "running", Success := "success",
        Error := "error" }
    modelStatus :=
      { ClusterStatusReconcilePending := "reconcile_pending"
        ClusterStatusReconcileFailed := "reconcile_failed"
        ClusterStatusReconciling := "reconciling"
        ClusterStatusReady := "ready"
        ClusterStatusError := "error" }
    kebStatus :=
      { ClusterStatusPending := "pending", ClusterStatusReconciling := "reconciling",
        ClusterStatusReady := "ready", ClusterStatusError := "error" }
    ParseDuration := fun s =>
      if s = "168h" then .ok (168 * time.Hour)
      else if s = "1h" then .ok time.Hour
      else .error (errors.New "time: invalid duration")
    Unmarshal := fun body => .ok { Status := body }
    MarshalError := fun _ => none
    IsNotFoundError := fun err => err.typ = "*repository.EntityNotFoundError"
    IsOperationNotFoundError := fun err => err.typ = "*scheduler.OperationNotFoundError" }

/-- An operations registry that knows the operation (correlation "c1",
scheduling "s1") and no other. -/
def operations : cmd.OperationsRegistry :=
  let known : String → String → Option GoError := fun correlationID schedulingID =>
    if correlationID = "c1" ∧ schedulingID = "s1" then none
    else some ⟨"*scheduler.OperationNotFoundError", "operation not found"⟩
  { SetInProgress := known
    SetDone := known
    SetError := fun correlationID schedulingID _ => known correlationID schedulingID }

/-- The status history of cluster "a". -/
def changesA : List cluster.StatusChange :=
  [ { Status := { (state "a").Status with Status := "reconcile_pending", Created := 10 }
      Duration := 5 },
    { Status := { (state "a").Status with Status := "ready", Created := 15 }
      Duration := 7 } ]

/-- The status history of cluster "odd", whose one status has no external
counterpart. -/
def changesOdd : List cluster.StatusChange :=
  [ { Status := { (state "odd").Status with Status := "deleted", Created := 10 }
      Duration := 5 } ]

/-- An inventory that knows the clusters "a" and, for its status history only,
"odd"; a lookup of cluster "broken" fails with an error that is not a
not-found error. -/
def clusters : cluster.Inventory :=
  let missing : String → GoError := fun name =>
    if name = "broken" then ⟨"*errors.errorString", "connection refused"⟩
    else ⟨"*repository.EntityNotFoundError", "not found"⟩
  { ClustersToReconcile := fun _ _ => .ok []
    Get := fun name _ => if name = "a" then .ok (state "a") else .error (missing name)
    GetLatest := fun name => if name = "a" then .ok (state "a") else .error (missing name)
    StatusChanges := fun name _ =>
      if name = "a" then .ok changesA
      else if name = "odd" then .ok changesOdd
      else .error (missing name) }

def options : cmd.Options :=
  { Registry := { Inventory := clusters, OperationsRegistry := operations } }

/-- A callback request for the operation (correlation, scheduling) whose body
decodes to the given status. -/
def callbackRequest (correlationID schedulingID status : String) : cmd.Request :=
  { Host := "localhost"
    RequestURI := "/v1/operations/" ++ schedulingID ++ "/callback/" ++ correlationID
    Body := .ok status
    Params :=
      { String := fun name =>
          if name = "schedulingID" then .ok schedulingID
          else if name = "correlationID" then .ok correlationID
          else .error (errors.New "parameter undefined")
        Int64 := fun _ => .error (errors.New "parameter undefined") } }

/-- A request about the named cluster, with configuration version 1 and with or
without an offset parameter. -/
def clusterRequest (clusterName : String) (offset : Option String) : cmd.Request :=
  { Host := "localhost"
    RequestURI := "/v1/clusters"
    Body := .ok ""
    Params :=
      { String := fun name =>
          if name = "cluster" then .ok clusterName
          else if name = "offset" then
            match offset with
            | some value => .ok value
            | none => .error (errors.New "parameter undefined")
          else .error (errors.New "parameter undefined")
        Int64 := fun name =>
          if name = "configVersion" then .ok 1
          else .error (errors.New "parameter undefined") } }

/-- A pod to watch. -/
def pod : progress.Target := { kind := "Pod", nameSpace := "unittest", name := "pod" }

/-- A tracker that watches two targets. -/
def tracker : progress.Tracker :=
  { config := { Interval := 1000000000, Timeout := 60000000000 }
    targets := [{ kind := "Deployment", nameSpace := "unittest", name := "deploy" }, pod] }

/-- Fetches in which the deployment is ready from the first poll on and the pod
never is. -/
def podNeverReady : Nat → progress.Target → progress.Observation :=
  fun _ target => if target.kind = "Pod" then .notReady else .ready

/-- A cluster status entity of the given status. -/
def statusEntity (status : model.Status) : model.ClusterStatusEntity :=
  { ID := 1, Cluster := "a", ClusterVersion := 1, ConfigVersion := 1, Status := status,
    Created := 0 }

end Sample

/-! ## Inventory watcher -/

namespace scheduler

theorem pushClusterStates_queue (clusterStates : List (Option cluster.State)) (s : RunState) :
    (pushClusterStates s clusterStates).queue = s.queue ++ clusterStates.reduceOption := by
  induction clusterStates generalizing s with
  | nil => simp [pushClusterStates]
  | cons head rest ih =>
    cases head with
    | none => simp [pushClusterStates, ih]
    | some clusterState => simp [pushClusterStates, ih, List.reduceOption_cons_of_some]

theorem pushClusterStates_queries (clusterStates : List (Option cluster.State)) (s : RunState) :
    (pushClusterStates s clusterStates).queries = s.queries := by
  induction clusterStates generalizing s with
  | nil => simp [pushClusterStates]
  | cons head rest ih =>
    cases head with
    | none => simp [pushClusterStates, ih]
    | some clusterState => simp [pushClusterStates, ih]

theorem processClustersToReconcile_queries (w : DefaultInventoryWatcher) (s : RunState) :
    (w.processClustersToReconcile s).queries
      = s.queries ++ [w.config.ClusterReconcileInterval] := by
  unfold DefaultInventoryWatcher.processClustersToReconcile
  cases w.inventory.ClustersToReconcile s.queries.length w.config.ClusterReconcileInterval with
  | error err => rfl
  | ok clusterStates => simp [pushClusterStates_queries]

theorem runLoop_ticks_then_done (w : DefaultInventoryWatcher) (rest : List Event) (k : Nat)
    (s : RunState) :
    (w.runLoop (List.replicate k Event.tick ++ Event.ctxDone :: rest) s).1
        = RunOutcome.returned none ∧
      (w.runLoop (List.replicate k Event.tick ++ Event.ctxDone :: rest) s).2.queries
        = s.queries ++ List.replicate k w.config.ClusterReconcileInterval := by
  induction k generalizing s with
  | zero => simp [DefaultInventoryWatcher.runLoop]
  | succ k ih =>
    have h := ih (w.processClustersToReconcile s)
    rw [processClustersToReconcile_queries] at h
    simpa [List.replicate_succ, DefaultInventoryWatcher.runLoop] using h

/-- C1: `validate` accepts a configuration whose two intervals are both at least
zero, and then each interval is its default (one minute, fifteen minutes) when
it was zero and is unchanged when it was positive; when either interval is
negative `validate` returns an error, and `NewInventoryWatch` returns an error
and no watcher. -/
theorem validate_intervals (wc : InventoryWatchConfig) :
    (0 ≤ wc.WatchInterval ∧ 0 ≤ wc.ClusterReconcileInterval →
      wc.validate.2 = none ∧
      wc.validate.1.WatchInterval
        = (if wc.WatchInterval = 0 then 60000000000 else wc.WatchInterval) ∧
      wc.validate.1.ClusterReconcileInterval
        = (if wc.ClusterReconcileInterval = 0 then 900000000000
            else wc.ClusterReconcileInterval)) ∧
    (wc.WatchInterval < 0 ∨ wc.ClusterReconcileInterval < 0 →
      wc.validate.2.isSome = true ∧
      ∀ (NewLogger : Bool → Option GoError) (inventory : cluster.Inventory) (debug : Bool),
        ∃ err, (NewInventoryWatch NewLogger inventory debug wc).1 = Except.error err) := by
  obtain ⟨wi, cri⟩ := wc
  have hd1 : defaultWatchInterval = 60000000000 := by decide
  have hd2 : defaultClusterReconcileInterval = 900000000000 := by decide
  constructor
  · rintro ⟨h1, h2⟩
    simp only at h1 h2
    have n1 : ¬ wi < 0 := not_lt.mpr h1
    have n2 : ¬ cri < 0 := not_lt.mpr h2
    by_cases a : wi = 0 <;> by_cases b : cri = 0 <;>
      simp [InventoryWatchConfig.validate, a, b, n1, n2, hd1, hd2]
  · intro h
    simp only at h
    have hv : (InventoryWatchConfig.validate ⟨wi, cri⟩).2.isSome = true := by
      by_cases a : wi < 0
      · simp [InventoryWatchConfig.validate, a]
      · have b : cri < 0 := h.resolve_left a
        by_cases c : wi = 0 <;> simp [InventoryWatchConfig.validate, a, b, c]
    refine ⟨hv, ?_⟩
    intro NewLogger inventory debug
    unfold NewInventoryWatch
    cases NewLogger debug with
    | some err => exact ⟨err, rfl⟩
    | none =>
      rcases hval : InventoryWatchConfig.validate ⟨wi, cri⟩ with ⟨config1, verr⟩
      rw [hval] at hv
      cases verr with
      | none => simp at hv
      | some err => exact ⟨err, rfl⟩

/-- C1 at concrete inputs: intervals (0, 5) validate to (one minute, 5), and
(3, -1) is rejected. -/
theorem validate_intervals_witness :
    (InventoryWatchConfig.validate ⟨0, 5⟩).2 = none ∧
      (InventoryWatchConfig.validate ⟨0, 5⟩).1.WatchInterval = 60000000000 ∧
      (InventoryWatchConfig.validate ⟨0, 5⟩).1.ClusterReconcileInterval = 5 ∧
      (InventoryWatchConfig.validate ⟨3, -1⟩).2.isSome = true :=
  have h := (validate_intervals ⟨0, 5⟩).1 ⟨by decide, by decide⟩
  ⟨h.1, h.2.1, h.2.2, ((validate_intervals ⟨3, -1⟩).2 (Or.inr (by decide))).1⟩

/-- C2: when the inventory answers the query of a discovery pass with a list of
cluster states, the pass queries with the configured cluster reconcile
interval and sends on the queue exactly the non-nil entries of the list, once
each and in list order, after what was sent before. -/
theorem processClustersToReconcile_pushes_non_nil (w : DefaultInventoryWatcher) (s : RunState)
    (clusterStates : List (Option cluster.State))
    (h : w.inventory.ClustersToReconcile s.queries.length w.config.ClusterReconcileInterval
      = Except.ok clusterStates) :
    (w.processClustersToReconcile s).queue = s.queue ++ clusterStates.reduceOption ∧
      (w.processClustersToReconcile s).queries
        = s.queries ++ [w.config.ClusterReconcileInterval] := by
  refine ⟨?_, processClustersToReconcile_queries w s⟩
  unfold DefaultInventoryWatcher.processClustersToReconcile
  rw [h]
  simp [pushClusterStates_queue]

/-- C2 at a concrete input: of the answer [a, nil, b] exactly a and b are sent. -/
theorem processClustersToReconcile_pushes_non_nil_witness :
    (Sample.watcher.processClustersToReconcile Sample.afterOne).queue
      = [Sample.state "a", Sample.state "b"] :=
  (processClustersToReconcile_pushes_non_nil Sample.watcher Sample.afterOne
    [some (Sample.state "a"), none, some (Sample.state "b")] rfl).1

/-- C7: when the inventory answers the query of a discovery pass with an error,
the pass sends nothing on the queue, logs the error and returns; the loop of
`Run` goes on from there: on the next tick it runs another pass, which queries
the inventory again, and after k ticks and the cancellation signal it has
queried once per tick and returns nil. -/
theorem processClustersToReconcile_error_is_swallowed (w : DefaultInventoryWatcher)
    (s : RunState) (err : GoError) (k : Nat) (rest : List Event)
    (h : w.inventory.ClustersToReconcile s.queries.length w.config.ClusterReconcileInterval
      = Except.error err) :
    (w.processClustersToReconcile s).queue = s.queue ∧
      (w.processClustersToReconcile s).queries
        = s.queries ++ [w.config.ClusterReconcileInterval] ∧
      (w.processClustersToReconcile s).logs
        = s.logs ++ [LogEntry.fetchError w.config.ClusterReconcileInterval err] ∧
      w.runLoop (Event.tick :: rest) (w.processClustersToReconcile s)
        = w.runLoop rest (w.processClustersToReconcile (w.processClustersToReconcile s)) ∧
      (w.processClustersToReconcile (w.processClustersToReconcile s)).queries
        = s.queries ++ [w.config.ClusterReconcileInterval, w.config.ClusterReconcileInterval] ∧
      (w.runLoop (List.replicate k Event.tick ++ Event.ctxDone :: rest)
          (w.processClustersToReconcile s)).1 = RunOutcome.returned none ∧
      (w.runLoop (List.replicate k Event.tick ++ Event.ctxDone :: rest)
          (w.processClustersToReconcile s)).2.queries
        = s.queries ++ List.replicate (k + 1) w.config.ClusterReconcileInterval := by
  have hl := runLoop_ticks_then_done w rest k (w.processClustersToReconcile s)
  rw [processClustersToReconcile_queries] at hl
  refine ⟨?_, processClustersToReconcile_queries w s, ?_, rfl, ?_, hl.1, ?_⟩
  · unfold DefaultInventoryWatcher.processClustersToReconcile
    rw [h]
  · unfold DefaultInventoryWatcher.processClustersToReconcile
    rw [h]
  · rw [processClustersToReconcile_queries, processClustersToReconcile_queries]
    simp
  · rw [hl.2, List.replicate_succ]
    simp

/-- C7 at a concrete input: the first query of the sample inventory fails, the
pass sends nothing, a second pass has queried the inventory a second time, and
the loop, receiving one tick and then the cancellation, returns nil. -/
theorem processClustersToReconcile_error_is_swallowed_witness :
    (Sample.watcher.processClustersToReconcile Sample.start).queue = [] ∧
      (Sample.watcher.processClustersToReconcile
        (Sample.watcher.processClustersToReconcile Sample.start)).queries
        = [900000000000, 900000000000] ∧
      (Sample.watcher.runLoop [Event.tick, Event.ctxDone]
        (Sample.watcher.processClustersToReconcile Sample.start)).1
        = RunOutcome.returned none :=
  have h := processClustersToReconcile_error_is_swallowed Sample.watcher Sample.start
    (errors.New "connection refused") 1 [] rfl
  ⟨h.1, h.2.2.2.2.1, h.2.2.2.2.2.1⟩

/-- C8: a call of `Run` (with a positive watch interval, so that the ticker can be
created) whose loop receives k ticks and then the cancellation signal returns
nil, and has queried the inventory exactly k + 1 times, each time with the
configured cluster reconcile interval. -/
theorem Run_queries_once_per_tick_plus_one (w : DefaultInventoryWatcher) (s : RunState)
    (k : Nat) (rest : List Event) (hpos : 0 < w.config.WatchInterval) :
    (w.Run (List.replicate k Event.tick ++ Event.ctxDone :: rest) s).1
        = RunOutcome.returned none ∧
      (w.Run (List.replicate k Event.tick ++ Event.ctxDone :: rest) s).2.queries
        = s.queries ++ List.replicate (k + 1) w.config.ClusterReconcileInterval ∧
      (w.Run (List.replicate k Event.tick ++ Event.ctxDone :: rest) s).2.queries.length
        = s.queries.length + (k + 1) := by
  have hn : ¬ w.config.WatchInterval ≤ 0 := not_le.mpr hpos
  have hl := runLoop_ticks_then_done w rest k
    (w.processClustersToReconcile
      { s with logs := s.logs ++ [LogEntry.startWatching w.config.WatchInterval] })
  rw [processClustersToReconcile_queries] at hl
  have hq : (w.Run (List.replicate k Event.tick ++ Event.ctxDone :: rest) s).2.queries
      = s.queries ++ List.replicate (k + 1) w.config.ClusterReconcileInterval := by
    simp only [DefaultInventoryWatcher.Run, hn, if_false]
    rw [hl.2, List.replicate_succ]
    simp
  refine ⟨?_, hq, ?_⟩
  · simp only [DefaultInventoryWatcher.Run, hn, if_false]
    exact hl.1
  · rw [hq]
    simp

/-- C8 at a concrete input: two ticks and then the cancellation give three
queries and the result nil. -/
theorem Run_queries_once_per_tick_plus_one_witness :
    (Sample.watcher.Run [Event.tick, Event.tick, Event.ctxDone] Sample.start).1
        = RunOutcome.returned none ∧
      (Sample.watcher.Run [Event.tick, Event.tick, Event.ctxDone] Sample.start).2.queries.length
        = 3 :=
  have h := Run_queries_once_per_tick_plus_one Sample.watcher Sample.start 2 [] (by decide)
  ⟨h.1, h.2.2⟩

end scheduler

/-! ## HTTP handlers -/

namespace cmd

open http

theorem WriteHeader_code_of_none (w : ResponseWriter) (statusCode : Nat) (hw : w.code = none) :
    (w.WriteHeader statusCode).code = some statusCode := by
  simp [ResponseWriter.WriteHeader, hw]

theorem WriteHeader_code_of_some (w : ResponseWriter) (statusCode c : Nat)
    (hw : w.code = some c) : (w.WriteHeader statusCode).code = some c := by
  simp [ResponseWriter.WriteHeader, hw]

theorem Write_code_of_some (w : ResponseWriter) (p : Payload) (c : Nat) (hw : w.code = some c) :
    (w.Write p).code = some c := by
  simp [ResponseWriter.Write, ResponseWriter.WriteHeader, hw]

theorem HeaderSet_code (w : ResponseWriter) (key value : String) :
    (w.HeaderSet key value).code = w.code := rfl

theorem Error_code_of_some (w : ResponseWriter) (error : String) (code c : Nat)
    (hw : w.code = some c) : (http.Error w error code).code = some c := by
  unfold http.Error
  apply Write_code_of_some
  apply WriteHeader_code_of_some
  simpa [HeaderSet_code] using hw

theorem jsonEncode_code_of_some (env : Env) (w : ResponseWriter) (v : Payload) (c : Nat)
    (hw : w.code = some c) : (jsonEncode env w v).1.code = some c := by
  unfold jsonEncode
  cases env.MarshalError v with
  | some err => exact hw
  | none => exact Write_code_of_some w v c hw

/-- The status code of an error response on a writer whose header is unwritten is
the code passed to `sendError`, whether or not the error body can be encoded. -/
theorem sendError_code (env : Env) (w : ResponseWriter) (httpCode : Nat) (err : GoError)
    (hw : w.code = none) : (sendError env w httpCode err).code = some httpCode := by
  have h2 : ((w.WriteHeader httpCode).HeaderSet "content-type" "application/json").code
      = some httpCode := by
    rw [HeaderSet_code]
    exact WriteHeader_code_of_none w httpCode hw
  have h3 := jsonEncode_code_of_some env _ (Payload.errorResponse { Error := err.msg }) _ h2
  unfold sendError
  simp only
  rcases hj : jsonEncode env ((w.WriteHeader httpCode).HeaderSet "content-type" "application/json")
      (Payload.errorResponse { Error := err.msg }) with ⟨w3, e⟩
  rw [hj] at h3
  cases e with
  | none => exact h3
  | some e1 =>
    apply Error_code_of_some
    exact WriteHeader_code_of_some _ _ _ h3

theorem sendError_statusCode (env : Env) (httpCode : Nat) (err : GoError) :
    (sendError env ResponseWriter.fresh httpCode err).statusCode = httpCode := by
  simp [ResponseWriter.statusCode, sendError_code env ResponseWriter.fresh httpCode err rfl]

/-- With both path parameters present, a readable body and a decodable message of
non-empty status, `operationCallback` is its `switch` followed by the error
check. -/
theorem operationCallback_of_valid (env : Env) (o : Options) (w : ResponseWriter) (r : Request)
    (schedulingID correlationID reqBody : String) (body : reconciler.CallbackMessage)
    (hs : r.Params.String paramSchedulingID = Except.ok schedulingID)
    (hc : r.Params.String paramCorrelationID = Except.ok correlationID)
    (hb : r.Body = Except.ok reqBody) (hu : env.Unmarshal reqBody = Except.ok body)
    (hne : body.Status ≠ "") :
    operationCallback env o w r
      = match callbackTransition env o body.Status correlationID schedulingID with
        | (some err, calls) =>
          ⟨sendError env w
            (if env.IsOperationNotFoundError err then StatusNotFound else StatusBadRequest) err,
            [], calls⟩
        | (none, calls) => ⟨w, [], calls⟩ := by
  simp only [operationCallback, hs, hc, hb, hu, if_neg hne]

/-- The `switch` of `operationCallback` makes no call for a status that is none
of the four constants. -/
theorem callbackTransition_of_unknown (env : Env) (o : Options)
    (status correlationID schedulingID : String)
    (h1 : status ≠ env.reconcilerStatus.NotStarted) (h2 : status ≠ env.reconcilerStatus.Running)
    (h3 : status ≠ env.reconcilerStatus.Success) (h4 : status ≠ env.reconcilerStatus.Error) :
    callbackTransition env o status correlationID schedulingID = (none, []) := by
  simp [callbackTransition, h1, h2, h3, h4]

/-- The `switch` of `operationCallback` makes exactly one call for a status that
is one of the four constants, and `err` is the answer to that call. -/
theorem callbackTransition_of_known (env : Env) (o : Options)
    (status correlationID schedulingID : String)
    (h : status = env.reconcilerStatus.NotStarted ∨ status = env.reconcilerStatus.Running ∨
      status = env.reconcilerStatus.Success ∨ status = env.reconcilerStatus.Error) :
    ∃ call, callbackTransition env o status correlationID schedulingID
      = (o.Registry.OperationsRegistry.answer call, [call]) := by
  unfold callbackTransition
  by_cases a : status = env.reconcilerStatus.NotStarted ∨ status = env.reconcilerStatus.Running
  · exact ⟨RegistryCall.SetInProgress correlationID schedulingID, by rw [if_pos a]; rfl⟩
  · by_cases b : status = env.reconcilerStatus.Success
    · exact ⟨RegistryCall.SetDone correlationID schedulingID, by rw [if_neg a, if_pos b]; rfl⟩
    · have c : status = env.reconcilerStatus.Error := by
        rcases h with h | h | h | h
        · exact absurd (Or.inl h) a
        · exact absurd (Or.inr h) a
        · exact absurd h b
        · exact h
      exact ⟨RegistryCall.SetError correlationID schedulingID "Reconciler reported error status",
        by rw [if_neg a, if_neg b, if_pos c]; rfl⟩

/-- C3, as the code behaves: for a callback request with both path parameters and a
decodable body, an empty status is answered with 400 and no registry call; a
non-empty status that is none of the four constants reaches no registry
method either, but nothing is written to the response, so the client receives
200 and not 400. -/
theorem operationCallback_unrecognized_status (env : Env) (o : Options) (r : Request)
    (schedulingID correlationID reqBody : String) (body : reconciler.CallbackMessage)
    (hs : r.Params.String paramSchedulingID = Except.ok schedulingID)
    (hc : r.Params.String paramCorrelationID = Except.ok correlationID)
    (hb : r.Body = Except.ok reqBody) (hu : env.Unmarshal reqBody = Except.ok body) :
    (body.Status = "" →
      (operationCallback env o ResponseWriter.fresh r).w.statusCode = 400 ∧
      (operationCallback env o ResponseWriter.fresh r).registryCalls = []) ∧
    (body.Status ≠ "" →
      body.Status ≠ env.reconcilerStatus.NotStarted →
      body.Status ≠ env.reconcilerStatus.Running →
      body.Status ≠ env.reconcilerStatus.Success →
      body.Status ≠ env.reconcilerStatus.Error →
      (operationCallback env o ResponseWriter.fresh r).w = ResponseWriter.fresh ∧
      (operationCallback env o ResponseWriter.fresh r).w.statusCode = 200 ∧
      (operationCallback env o ResponseWriter.fresh r).registryCalls = []) := by
  constructor
  · intro he
    simp only [operationCallback, hs, hc, hb, hu, if_pos he]
    exact ⟨sendError_statusCode env _ _, trivial⟩
  · intro hne h1 h2 h3 h4
    rw [operationCallback_of_valid env o _ r schedulingID correlationID reqBody body hs hc hb hu
      hne, callbackTransition_of_unknown env o _ _ _ h1 h2 h3 h4]
    exact ⟨rfl, rfl, rfl⟩

/-- C3 at the failing input: the status "unknown" is answered with 200, nothing
written and no registry call. -/
theorem operationCallback_unrecognized_status_witness :
    (operationCallback Sample.env Sample.options ResponseWriter.fresh
        (Sample.callbackRequest "c1" "s1" "unknown")).w.statusCode = 200 ∧
      (operationCallback Sample.env Sample.options ResponseWriter.fresh
        (Sample.callbackRequest "c1" "s1" "unknown")).registryCalls = [] :=
  have h := (operationCallback_unrecognized_status Sample.env Sample.options
    (Sample.callbackRequest "c1" "s1" "unknown") "s1" "c1" "unknown" ⟨"unknown"⟩
    rfl rfl rfl rfl).2 (by decide) (by decide) (by decide) (by decide) (by decide)
  ⟨h.2.1, h.2.2⟩

/-- C4: for a callback request with both path parameters and a decodable body whose
status is not empty, and with the four status constants pairwise different (as
the cases of a Go `switch` are), `operationCallback` makes exactly one
registry call: `SetInProgress` for NotStarted and for Running, `SetDone` for
Success, `SetError` with a reason for Error, each with the correlation ID and
scheduling ID of the request; it calls nothing of the inventory. -/
theorem operationCallback_transition (env : Env) (o : Options) (w : ResponseWriter) (r : Request)
    (schedulingID correlationID reqBody : String) (body : reconciler.CallbackMessage)
    (hs : r.Params.String paramSchedulingID = Except.ok schedulingID)
    (hc : r.Params.String paramCorrelationID = Except.ok correlationID)
    (hb : r.Body = Except.ok reqBody) (hu : env.Unmarshal reqBody = Except.ok body)
    (hne : body.Status ≠ "")
    (hdist : [env.reconcilerStatus.NotStarted, env.reconcilerStatus.Running,
      env.reconcilerStatus.Success, env.reconcilerStatus.Error].Nodup) :
    (body.Status = env.reconcilerStatus.NotStarted ∨ body.Status = env.reconcilerStatus.Running →
      (operationCallback env o w r).registryCalls
        = [RegistryCall.SetInProgress correlationID schedulingID]) ∧
    (body.Status = env.reconcilerStatus.Success →
      (operationCallback env o w r).registryCalls
        = [RegistryCall.SetDone correlationID schedulingID]) ∧
    (body.Status = env.reconcilerStatus.Error →
      (operationCallback env o w r).registryCalls
        = [RegistryCall.SetError correlationID schedulingID
            "Reconciler reported error status"]) ∧
    (operationCallback env o w r).inventoryCalls = [] := by
  have hcalls : (operationCallback env o w r).registryCalls
        = (callbackTransition env o body.Status correlationID schedulingID).2 ∧
      (operationCallback env o w r).inventoryCalls = [] := by
    rw [operationCallback_of_valid env o w r schedulingID correlationID reqBody body hs hc hb hu
      hne]
    rcases callbackTransition env o body.Status correlationID schedulingID with ⟨e, calls⟩
    cases e <;> exact ⟨rfl, rfl⟩
  simp only [List.nodup_cons, List.mem_cons, List.mem_singleton, List.not_mem_nil, not_or,
    List.nodup_nil, not_false_eq_true, and_true] at hdist
  obtain ⟨⟨h12, h13, h14⟩, ⟨h23, h24⟩, h34⟩ := hdist
  refine ⟨?_, ?_, ?_, hcalls.2⟩
  · intro h
    rw [hcalls.1]
    simp [callbackTransition, h]
  · intro h
    rw [hcalls.1]
    have a : ¬ (env.reconcilerStatus.Success = env.reconcilerStatus.NotStarted ∨
        env.reconcilerStatus.Success = env.reconcilerStatus.Running) := by
      rintro (e | e)
      · exact h13 e.symm
      · exact h23 e.symm
    simp [callbackTransition, h, a]
  · intro h
    rw [hcalls.1]
    have a : ¬ (env.reconcilerStatus.Error = env.reconcilerStatus.NotStarted ∨
        env.reconcilerStatus.Error = env.reconcilerStatus.Running) := by
      rintro (e | e)
      · exact h14 e.symm
      · exact h24 e.symm
    have b : ¬ env.reconcilerStatus.Error = env.reconcilerStatus.Success := fun e => h34 e.symm
    simp [callbackTransition, h, a, b]

/-- C4 at a concrete input: the status "running" calls `SetInProgress` with the
correlation ID and scheduling ID of the request. -/
theorem operationCallback_transition_witness :
    (operationCallback Sample.env Sample.options ResponseWriter.fresh
        (Sample.callbackRequest "c1" "s1" "running")).registryCalls
      = [RegistryCall.SetInProgress "c1" "s1"] :=
  (operationCallback_transition Sample.env Sample.options ResponseWriter.fresh
    (Sample.callbackRequest "c1" "s1" "running") "s1" "c1" "running" ⟨"running"⟩
    rfl rfl rfl rfl (by decide) (by decide)).1 (Or.inr rfl)

/-- C5: for a callback request with both path parameters and a decodable body whose
status is not empty and is one of the four constants, `operationCallback`
makes one registry call; when the registry answers it with an error that is an
operation-not-found error the response code is 404, with any other error it
is 400, and with no error nothing is written to the response (the client
receives 200). -/
theorem operationCallback_response (env : Env) (o : Options) (r : Request)
    (schedulingID correlationID reqBody : String) (body : reconciler.CallbackMessage)
    (hs : r.Params.String paramSchedulingID = Except.ok schedulingID)
    (hc : r.Params.String paramCorrelationID = Except.ok correlationID)
    (hb : r.Body = Except.ok reqBody) (hu : env.Unmarshal reqBody = Except.ok body)
    (hne : body.Status ≠ "")
    (hknown : body.Status = env.reconcilerStatus.NotStarted ∨
      body.Status = env.reconcilerStatus.Running ∨
      body.Status = env.reconcilerStatus.Success ∨ body.Status = env.reconcilerStatus.Error) :
    ∃ call, (operationCallback env o ResponseWriter.fresh r).registryCalls = [call] ∧
      (∀ err, o.Registry.OperationsRegistry.answer call = some err →
        env.IsOperationNotFoundError err = true →
        (operationCallback env o ResponseWriter.fresh r).w.statusCode = 404) ∧
      (∀ err, o.Registry.OperationsRegistry.answer call = some err →
        env.IsOperationNotFoundError err = false →
        (operationCallback env o ResponseWriter.fresh r).w.statusCode = 400) ∧
      (o.Registry.OperationsRegistry.answer call = none →
        (operationCallback env o ResponseWriter.fresh r).w = ResponseWriter.fresh ∧
        (operationCallback env o ResponseWriter.fresh r).w.statusCode = 200) := by
  obtain ⟨call, hcall⟩ := callbackTransition_of_known env o body.Status correlationID
    schedulingID hknown
  refine ⟨call, ?_⟩
  rw [operationCallback_of_valid env o _ r schedulingID correlationID reqBody body hs hc hb hu
    hne, hcall]
  cases hres : o.Registry.OperationsRegistry.answer call with
  | none => exact ⟨rfl, by simp, by simp, fun _ => ⟨rfl, rfl⟩⟩
  | some e =>
    refine ⟨rfl, ?_, ?_, by simp⟩
    · intro err herr hnf
      cases herr
      simp only [hnf, if_true]
      exact sendError_statusCode env _ _
    · intro err herr hnf
      cases herr
      simp only [hnf]
      exact sendError_statusCode env _ _

/-- C5 at a concrete input: a "success" callback for an operation the registry
does not know is answered with 404. -/
theorem operationCallback_response_witness :
    (operationCallback Sample.env Sample.options ResponseWriter.fresh
        (Sample.callbackRequest "c2" "s1" "success")).w.statusCode = 404 := by
  obtain ⟨call, hcalls, h404, -, -⟩ := operationCallback_response Sample.env Sample.options
    (Sample.callbackRequest "c2" "s1" "success") "s1" "c2" "success" ⟨"success"⟩
    rfl rfl rfl rfl (by decide) (Or.inr (Or.inr (Or.inl rfl)))
  have hc : call = RegistryCall.SetDone "c2" "s1" := by
    have h : (operationCallback Sample.env Sample.options ResponseWriter.fresh
        (Sample.callbackRequest "c2" "s1" "success")).registryCalls
        = [RegistryCall.SetDone "c2" "s1"] := by decide
    rw [h] at hcalls
    exact (List.cons.inj hcalls).1.symm
  subst hc
  exact h404 ⟨"*scheduler.OperationNotFoundError", "operation not found"⟩ (by decide) (by decide)

/-- The default offset text, `fmt.Sprintf("%dh", 24*7)`. -/
theorem default_offset_text : toString (24 * 7 : Int) ++ "h" = "168h" := by decide

/-- With the cluster parameter present and a parsable offset, `statusChanges` is
the inventory query followed by the mapping loop and the encoding. -/
theorem statusChanges_of_valid (env : Env) (o : Options) (w : ResponseWriter) (r : Request)
    (clusterName : String) (duration : time.Duration)
    (hcl : r.Params.String paramCluster = Except.ok clusterName)
    (hdur : env.ParseDuration (offsetOrDefault r.Params) = Except.ok duration) :
    statusChanges env o w r
      = match o.Registry.Inventory.StatusChanges clusterName duration with
        | .error err =>
          ⟨sendError env w
            (if env.IsNotFoundError err then StatusNotFound else StatusInternalServerError)
            (errors.Wrap err "Could not retrieve cluster statusChanges"),
            [InventoryCall.StatusChanges clusterName duration], []⟩
        | .ok statusChanges =>
          match statusChangesLoop env statusChanges [] with
          | .error err =>
            ⟨sendError env w StatusInternalServerError
              (errors.Wrap err
                "Failed to map reconciler internal cluster status to KEB cluster status"),
              [InventoryCall.StatusChanges clusterName duration], []⟩
          | .ok entries =>
            match jsonEncode env (w.HeaderSet "content-type" "application/json")
                (Payload.clusterStatusResponse { StatusChanges := entries }) with
            | (w2, some err) =>
              ⟨sendError env w2 StatusInternalServerError
                (errors.Wrap err "Failed to encode cluster statusChanges response"),
                [InventoryCall.StatusChanges clusterName duration], []⟩
            | (w2, none) => ⟨w2, [InventoryCall.StatusChanges clusterName duration], []⟩ := by
  simp only [statusChanges, hcl, hdur]

theorem statusChanges_inventoryCalls (env : Env) (o : Options) (w : ResponseWriter) (r : Request)
    (clusterName : String) (duration : time.Duration)
    (hcl : r.Params.String paramCluster = Except.ok clusterName)
    (hdur : env.ParseDuration (offsetOrDefault r.Params) = Except.ok duration) :
    (statusChanges env o w r).inventoryCalls
      = [InventoryCall.StatusChanges clusterName duration] := by
  rw [statusChanges_of_valid env o w r clusterName duration hcl hdur]
  cases o.Registry.Inventory.StatusChanges clusterName duration with
  | error err => rfl
  | ok scs =>
    simp only
    cases statusChangesLoop env scs [] with
    | error err => rfl
    | ok entries =>
      simp only
      rcases jsonEncode env (w.HeaderSet "content-type" "application/json")
        (Payload.clusterStatusResponse { StatusChanges := entries }) with ⟨w2, e⟩
      cases e <;> rfl

theorem statusChangesLoop_ok (env : Env) (statusChanges : List cluster.StatusChange)
    (resp : List keb.StatusChange)
    (h : ∀ sc ∈ statusChanges, ∃ k,
      sc.Status.GetKEBClusterStatus env.modelStatus env.kebStatus = Except.ok k) :
    ∃ entries, statusChangesLoop env statusChanges resp = Except.ok (resp ++ entries) ∧
      List.Forall₂ (EntryOf env) statusChanges entries := by
  induction statusChanges generalizing resp with
  | nil => exact ⟨[], by simp [statusChangesLoop], List.Forall₂.nil⟩
  | cons sc rest ih =>
    obtain ⟨k, hk⟩ := h sc (List.mem_cons_self sc rest)
    obtain ⟨entries, hloop, hall⟩ :=
      ih (resp ++ [{ Started := sc.Status.Created, Duration := sc.Duration, Status := k }])
        (fun x hx => h x (List.mem_cons_of_mem sc hx))
    refine ⟨{ Started := sc.Status.Created, Duration := sc.Duration, Status := k } :: entries,
      ?_, List.Forall₂.cons ⟨hk, rfl, rfl⟩ hall⟩
    simp only [statusChangesLoop, hk]
    rw [hloop]
    simp

theorem statusChangesLoop_error (env : Env) (statusChanges : List cluster.StatusChange)
    (resp : List keb.StatusChange)
    (h : ∃ sc ∈ statusChanges, ∃ e,
      sc.Status.GetKEBClusterStatus env.modelStatus env.kebStatus = Except.error e) :
    ∃ e, statusChangesLoop env statusChanges resp = Except.error e := by
  induction statusChanges generalizing resp with
  | nil =>
    obtain ⟨sc, hmem, -⟩ := h
    exact absurd hmem (List.not_mem_nil sc)
  | cons sc rest ih =>
    cases hk : sc.Status.GetKEBClusterStatus env.modelStatus env.kebStatus with
    | error e => exact ⟨e, by simp only [statusChangesLoop, hk]⟩
    | ok k =>
      have hrest : ∃ x ∈ rest, ∃ e,
          x.Status.GetKEBClusterStatus env.modelStatus env.kebStatus = Except.error e := by
        obtain ⟨x, hmem, e, he⟩ := h
        rcases List.mem_cons.mp hmem with hx | hx
        · subst hx
          rw [hk] at he
          cases he
        · exact ⟨x, hx, e, he⟩
      obtain ⟨e, he⟩ :=
        ih (resp ++ [{ Started := sc.Status.Created, Duration := sc.Duration, Status := k }]) hrest
      exact ⟨e, by simp only [statusChangesLoop, hk, he]⟩

theorem offsetOrDefault_of_present (params : server.Params) (offset : String)
    (h : params.String paramOffset = Except.ok offset) : offsetOrDefault params = offset := by
  simp only [offsetOrDefault, h]

theorem offsetOrDefault_of_absent (params : server.Params) (err : GoError)
    (h : params.String paramOffset = Except.error err) : offsetOrDefault params = "168h" := by
  simp only [offsetOrDefault, h]
  exact default_offset_text

/-- C6: a `statusChanges` request whose offset parameter is present and does not
parse as a duration is answered with 400 and no inventory call at all; when
the cluster parameter is present (as the route provides) and the offset
parameter is absent, the text parsed is "168h" and, `time.ParseDuration`
reading it as 168 hours, `StatusChanges` is called once with exactly one week
(604800000000000 ns); when the offset parameter is present and parses,
`StatusChanges` is called once with the parsed duration. -/
theorem statusChanges_offset (env : Env) (o : Options) (r : Request) :
    (∀ offset err, r.Params.String paramOffset = Except.ok offset →
      env.ParseDuration offset = Except.error err →
      (statusChanges env o ResponseWriter.fresh r).w.statusCode = 400 ∧
      (statusChanges env o ResponseWriter.fresh r).inventoryCalls = []) ∧
    (∀ clusterName, r.Params.String paramCluster = Except.ok clusterName →
      (∀ err, r.Params.String paramOffset = Except.error err →
        env.ParseDuration "168h" = Except.ok (168 * time.Hour) →
        (statusChanges env o ResponseWriter.fresh r).inventoryCalls
          = [InventoryCall.StatusChanges clusterName 604800000000000]) ∧
      (∀ offset duration, r.Params.String paramOffset = Except.ok offset →
        env.ParseDuration offset = Except.ok duration →
        (statusChanges env o ResponseWriter.fresh r).inventoryCalls
          = [InventoryCall.StatusChanges clusterName duration])) := by
  refine ⟨?_, ?_⟩
  · intro offset err hoff hparse
    cases hcl : r.Params.String paramCluster with
    | error e =>
      simp only [statusChanges, hcl]
      exact ⟨sendError_statusCode env _ _, trivial⟩
    | ok clusterName =>
      simp only [statusChanges, hcl, offsetOrDefault_of_present r.Params offset hoff, hparse]
      exact ⟨sendError_statusCode env _ _, trivial⟩
  · intro clusterName hcl
    refine ⟨?_, ?_⟩
    · intro err hoff hparse
      have hweek : (168 * time.Hour : time.Duration) = 604800000000000 := by decide
      rw [← hweek]
      apply statusChanges_inventoryCalls env o _ r clusterName _ hcl
      rw [offsetOrDefault_of_absent r.Params err hoff]
      exact hparse
    · intro offset duration hoff hparse
      apply statusChanges_inventoryCalls env o _ r clusterName _ hcl
      rw [offsetOrDefault_of_present r.Params offset hoff]
      exact hparse

/-- C6 at concrete inputs: the offset "bogus" is answered with 400 and no inventory
call; without an offset the inventory is asked for one week; with the offset
"1h" it is asked for one hour. -/
theorem statusChanges_offset_witness :
    ((statusChanges Sample.env Sample.options ResponseWriter.fresh
        (Sample.clusterRequest "a" (some "bogus"))).w.statusCode = 400 ∧
      (statusChanges Sample.env Sample.options ResponseWriter.fresh
        (Sample.clusterRequest "a" (some "bogus"))).inventoryCalls = []) ∧
    (statusChanges Sample.env Sample.options ResponseWriter.fresh
        (Sample.clusterRequest "a" none)).inventoryCalls
      = [InventoryCall.StatusChanges "a" 604800000000000] ∧
    (statusChanges Sample.env Sample.options ResponseWriter.fresh
        (Sample.clusterRequest "a" (some "1h"))).inventoryCalls
      = [InventoryCall.StatusChanges "a" 3600000000000] :=
  ⟨(statusChanges_offset Sample.env Sample.options (Sample.clusterRequest "a" (some "bogus"))).1
      "bogus" (errors.New "time: invalid duration") rfl rfl,
    ((statusChanges_offset Sample.env Sample.options (Sample.clusterRequest "a" none)).2
      "a" rfl).1 (errors.New "parameter undefined") rfl rfl,
    ((statusChanges_offset Sample.env Sample.options (Sample.clusterRequest "a" (some "1h"))).2
      "a" rfl).2 "1h" 3600000000000 rfl rfl⟩

/-- C9: for a `statusChanges` request with the cluster parameter present and a
parsable offset, to which the inventory answers a list of status changes: when
every status maps to an external status, the response handed to the encoder
has one entry per status change, in the order of the inventory, each with the
mapped status, the creation time as `Started` and the duration unchanged, and
once encoded it is the whole body of a 200 response; when some status does not
map, the response code is 500. -/
theorem statusChanges_entries (env : Env) (o : Options) (r : Request)
    (clusterName : String) (duration : time.Duration) (changes : List cluster.StatusChange)
    (hcl : r.Params.String paramCluster = Except.ok clusterName)
    (hdur : env.ParseDuration (offsetOrDefault r.Params) = Except.ok duration)
    (hinv : o.Registry.Inventory.StatusChanges clusterName duration = Except.ok changes) :
    ((∀ sc ∈ changes, ∃ k,
        sc.Status.GetKEBClusterStatus env.modelStatus env.kebStatus = Except.ok k) →
      ∃ entries, List.Forall₂ (EntryOf env) changes entries ∧
        entries.length = changes.length ∧
        (env.MarshalError (Payload.clusterStatusResponse { StatusChanges := entries }) = none →
          (statusChanges env o ResponseWriter.fresh r).w.body
            = [Payload.clusterStatusResponse { StatusChanges := entries }] ∧
          (statusChanges env o ResponseWriter.fresh r).w.statusCode = 200)) ∧
    ((∃ sc ∈ changes, ∃ e,
        sc.Status.GetKEBClusterStatus env.modelStatus env.kebStatus = Except.error e) →
      (statusChanges env o ResponseWriter.fresh r).w.statusCode = 500) := by
  constructor
  · intro hall
    obtain ⟨entries, hloop, hrel⟩ := statusChangesLoop_ok env changes [] hall
    refine ⟨entries, hrel, hrel.length_eq.symm, ?_⟩
    intro hmarshal
    rw [statusChanges_of_valid env o _ r clusterName duration hcl hdur, hinv]
    simp only [hloop, List.nil_append, jsonEncode, hmarshal]
    exact ⟨rfl, rfl⟩
  · intro hsome
    obtain ⟨e, hloop⟩ := statusChangesLoop_error env changes [] hsome
    rw [statusChanges_of_valid env o _ r clusterName duration hcl hdur, hinv]
    simp only [hloop]
    exact sendError_statusCode env _ _

/-- C9 at concrete inputs: the two status changes of cluster "a" give two entries
in the same order; the unmappable status of cluster "odd" gives 500. -/
theorem statusChanges_entries_witness :
    (∃ entries, List.Forall₂ (EntryOf Sample.env) Sample.changesA entries ∧
        entries.length = 2 ∧
        (statusChanges Sample.env Sample.options ResponseWriter.fresh
          (Sample.clusterRequest "a" none)).w.body
          = [Payload.clusterStatusResponse { StatusChanges := entries }]) ∧
    (statusChanges Sample.env Sample.options ResponseWriter.fresh
        (Sample.clusterRequest "odd" none)).w.statusCode = 500 := by
  constructor
  · have hmap : ∀ sc ∈ Sample.changesA, ∃ k,
        sc.Status.GetKEBClusterStatus Sample.env.modelStatus Sample.env.kebStatus
          = Except.ok k := by
      intro sc hsc
      simp only [Sample.changesA, List.mem_cons, List.mem_singleton, List.not_mem_nil,
        or_false] at hsc
      rcases hsc with h | h
      · exact ⟨"pending", by rw [h]; rfl⟩
      · exact ⟨"ready", by rw [h]; rfl⟩
    obtain ⟨entries, hrel, hlen, hbody⟩ :=
      (statusChanges_entries Sample.env Sample.options (Sample.clusterRequest "a" none) "a"
        604800000000000 Sample.changesA rfl rfl rfl).1 hmap
    exact ⟨entries, hrel, hlen, (hbody rfl).1⟩
  · exact (statusChanges_entries Sample.env Sample.options (Sample.clusterRequest "odd" none)
      "odd" 604800000000000 Sample.changesOdd rfl rfl rfl).2
      ⟨_, List.mem_singleton.mpr rfl, _, rfl⟩

/-- C10: for `getCluster`, `getLatestCluster` and `statusChanges`, with the request
parameters valid, a failing inventory lookup is answered with 404 when the
error is a not-found error and with 500 when it is any other error. -/
theorem inventory_lookup_failure_code (env : Env) (o : Options) (r : Request)
    (clusterName : String) (err : GoError)
    (hcl : r.Params.String paramCluster = Except.ok clusterName) :
    (∀ configVersion, r.Params.Int64 paramConfigVersion = Except.ok configVersion →
      o.Registry.Inventory.Get clusterName configVersion = Except.error err →
      (getCluster env o ResponseWriter.fresh r).w.statusCode
        = if env.IsNotFoundError err = true then 404 else 500) ∧
    (o.Registry.Inventory.GetLatest clusterName = Except.error err →
      (getLatestCluster env o ResponseWriter.fresh r).w.statusCode
        = if env.IsNotFoundError err = true then 404 else 500) ∧
    (∀ duration, env.ParseDuration (offsetOrDefault r.Params) = Except.ok duration →
      o.Registry.Inventory.StatusChanges clusterName duration = Except.error err →
      (statusChanges env o ResponseWriter.fresh r).w.statusCode
        = if env.IsNotFoundError err = true then 404 else 500) := by
  refine ⟨?_, ?_, ?_⟩
  · intro configVersion hcv hget
    simp only [getCluster, hcl, hcv, hget]
    exact sendError_statusCode env _ _
  · intro hget
    simp only [getLatestCluster, hcl, hget]
    exact sendError_statusCode env _ _
  · intro duration hdur hget
    rw [statusChanges_of_valid env o _ r clusterName duration hcl hdur, hget]
    exact sendError_statusCode env _ _

/-- C10 at concrete inputs: the unknown cluster "zzz" is answered with 404 by the
three handlers, and the failing lookup of "broken" with 500. -/
theorem inventory_lookup_failure_code_witness :
    (getCluster Sample.env Sample.options ResponseWriter.fresh
        (Sample.clusterRequest "zzz" none)).w.statusCode = 404 ∧
      (getLatestCluster Sample.env Sample.options ResponseWriter.fresh
        (Sample.clusterRequest "zzz" none)).w.statusCode = 404 ∧
      (statusChanges Sample.env Sample.options ResponseWriter.fresh
        (Sample.clusterRequest "zzz" none)).w.statusCode = 404 ∧
      (getLatestCluster Sample.env Sample.options ResponseWriter.fresh
        (Sample.clusterRequest "broken" none)).w.statusCode = 500 :=
  have h := inventory_lookup_failure_code Sample.env Sample.options
    (Sample.clusterRequest "zzz" none) "zzz" ⟨"*repository.EntityNotFoundError", "not found"⟩ rfl
  have hb := inventory_lookup_failure_code Sample.env Sample.options
    (Sample.clusterRequest "broken" none) "broken" ⟨"*errors.errorString", "connection refused"⟩
    rfl
  ⟨h.1 1 rfl rfl, h.2.1 rfl, h.2.2 604800000000000 rfl rfl, hb.2.1 rfl⟩

end cmd

/-! ## Cluster status mapping -/

namespace model

/-- C13: with the five cluster status constants pairwise different (as the cases
of a Go `switch` are), `GetKEBClusterStatus` returns no error if and only if
the status is one of the five; ReconcilePending maps to the external Pending,
Reconciling and ReconcileFailed both map to the external Reconciling, Ready
maps to Ready and Error to Error; every other status gives an error. -/
theorem GetKEBClusterStatus_mapping (m : ClusterStatusConsts) (k : keb.ClusterStatusConsts)
    (c : ClusterStatusEntity)
    (hdist : [m.ClusterStatusReconcilePending, m.ClusterStatusReconcileFailed,
      m.ClusterStatusReconciling, m.ClusterStatusReady, m.ClusterStatusError].Nodup) :
    ((∃ status, c.GetKEBClusterStatus m k = Except.ok status) ↔
      c.Status ∈ [m.ClusterStatusReconcilePending, m.ClusterStatusReconciling,
        m.ClusterStatusReconcileFailed, m.ClusterStatusReady, m.ClusterStatusError]) ∧
    (c.Status = m.ClusterStatusReconcilePending →
      c.GetKEBClusterStatus m k = Except.ok k.ClusterStatusPending) ∧
    (c.Status = m.ClusterStatusReconciling →
      c.GetKEBClusterStatus m k = Except.ok k.ClusterStatusReconciling) ∧
    (c.Status = m.ClusterStatusReconcileFailed →
      c.GetKEBClusterStatus m k = Except.ok k.ClusterStatusReconciling) ∧
    (c.Status = m.ClusterStatusReady →
      c.GetKEBClusterStatus m k = Except.ok k.ClusterStatusReady) ∧
    (c.Status = m.ClusterStatusError →
      c.GetKEBClusterStatus m k = Except.ok k.ClusterStatusError) ∧
    (c.Status ∉ [m.ClusterStatusReconcilePending, m.ClusterStatusReconciling,
        m.ClusterStatusReconcileFailed, m.ClusterStatusReady, m.ClusterStatusError] →
      ∃ err, c.GetKEBClusterStatus m k = Except.error err) := by
  simp only [List.nodup_cons, List.mem_cons, List.mem_singleton, List.not_mem_nil, not_or,
    List.nodup_nil, not_false_eq_true, and_true, or_false] at hdist
  obtain ⟨⟨h12, h13, h14, h15⟩, ⟨h23, h24, h25⟩, ⟨h34, h35⟩, h45⟩ := hdist
  refine ⟨?_, ?_, ?_, ?_, ?_, ?_, ?_⟩
  · unfold ClusterStatusEntity.GetKEBClusterStatus
    simp only [List.mem_cons, List.mem_singleton, List.not_mem_nil, or_false]
    by_cases a1 : c.Status = m.ClusterStatusReconcilePending
    · rw [if_pos a1]
      exact ⟨fun _ => Or.inl a1, fun _ => ⟨_, rfl⟩⟩
    by_cases a2 : c.Status = m.ClusterStatusReconcileFailed
    · rw [if_neg a1, if_pos a2]
      exact ⟨fun _ => Or.inr (Or.inr (Or.inl a2)), fun _ => ⟨_, rfl⟩⟩
    by_cases a3 : c.Status = m.ClusterStatusReconciling
    · rw [if_neg a1, if_neg a2, if_pos a3]
      exact ⟨fun _ => Or.inr (Or.inl a3), fun _ => ⟨_, rfl⟩⟩
    by_cases a4 : c.Status = m.ClusterStatusReady
    · rw [if_neg a1, if_neg a2, if_neg a3, if_pos a4]
      exact ⟨fun _ => Or.inr (Or.inr (Or.inr (Or.inl a4))), fun _ => ⟨_, rfl⟩⟩
    by_cases a5 : c.Status = m.ClusterStatusError
    · rw [if_neg a1, if_neg a2, if_neg a3, if_neg a4, if_pos a5]
      exact ⟨fun _ => Or.inr (Or.inr (Or.inr (Or.inr a5))), fun _ => ⟨_, rfl⟩⟩
    · rw [if_neg a1, if_neg a2, if_neg a3, if_neg a4, if_neg a5]
      constructor
      · rintro ⟨status, h⟩
        cases h
      · rintro (h | h | h | h | h)
        · exact absurd h a1
        · exact absurd h a3
        · exact absurd h a2
        · exact absurd h a4
        · exact absurd h a5
  · intro h
    simp [ClusterStatusEntity.GetKEBClusterStatus, h]
  · intro h
    simp [ClusterStatusEntity.GetKEBClusterStatus, h, Ne.symm h13, Ne.symm h23]
  · intro h
    simp [ClusterStatusEntity.GetKEBClusterStatus, h, Ne.symm h12]
  · intro h
    simp [ClusterStatusEntity.GetKEBClusterStatus, h, Ne.symm h14, Ne.symm h24, Ne.symm h34]
  · intro h
    simp [ClusterStatusEntity.GetKEBClusterStatus, h, Ne.symm h15, Ne.symm h25, Ne.symm h35,
      Ne.symm h45]
  · intro h
    simp only [List.mem_cons, List.mem_singleton, List.not_mem_nil, or_false, not_or] at h
    obtain ⟨a1, a3, a2, a4, a5⟩ := h
    unfold ClusterStatusEntity.GetKEBClusterStatus
    rw [if_neg a1, if_neg a2, if_neg a3, if_neg a4, if_neg a5]
    exact ⟨_, rfl⟩

/-- C13 at concrete inputs: with the sample constants the status
"reconcile_failed" maps to the external "reconciling", and the status
"deleted" gives an error. -/
theorem GetKEBClusterStatus_mapping_witness :
    (Sample.statusEntity "reconcile_failed").GetKEBClusterStatus Sample.env.modelStatus
        Sample.env.kebStatus = Except.ok "reconciling" ∧
      ∃ err, (Sample.statusEntity "deleted").GetKEBClusterStatus Sample.env.modelStatus
        Sample.env.kebStatus = Except.error err :=
  ⟨(GetKEBClusterStatus_mapping Sample.env.modelStatus Sample.env.kebStatus
      (Sample.statusEntity "reconcile_failed") (by decide)).2.2.2.1 rfl,
    (GetKEBClusterStatus_mapping Sample.env.modelStatus Sample.env.kebStatus
      (Sample.statusEntity "deleted") (by decide)).2.2.2.2.2.2 (by decide)⟩

end model

/-! ## Progress tracker -/

namespace progress

theorem mem_pollPending (targetState : State) (observe : Target → Observation)
    (pending : List Target) (target : Target) (hmem : target ∈ pending)
    (hpend : satisfies targetState (observe target) = false) :
    target ∈ pollPending targetState observe pending := by
  unfold pollPending
  exact List.mem_filter.mpr ⟨hmem, by simp [hpend]⟩

theorem isEmpty_eq_false_of_mem (pending : List Target) (target : Target)
    (hmem : target ∈ pending) : pending.isEmpty = false := by
  cases pending with
  | nil => exact absurd hmem (List.not_mem_nil target)
  | cons head rest => rfl

/-- The polling loop ends with a `ContextClosedError` when a target stays pending
through k polls and the cancellation signal or the timeout comes next. -/
theorem watchLoop_pending (targetState : State) (observe : Nat → Target → Observation)
    (target : Target) (stop : WatchEvent) (rest : List WatchEvent)
    (hstop : stop = WatchEvent.ctxDone ∨ stop = WatchEvent.timeout) (k : Nat) (n : Nat)
    (pending : List Target) (hmem : target ∈ pending)
    (hpend : ∀ i, n ≤ i → i < n + k → satisfies targetState (observe i target) = false) :
    ∃ message, watchLoop targetState observe n (List.replicate k WatchEvent.tick ++ stop :: rest)
      pending = WatchOutcome.returned (some (ContextClosedError message)) := by
  induction k generalizing n pending with
  | zero =>
    rcases hstop with h | h
    · exact ⟨"context closed", by simp [h, watchLoop]⟩
    · exact ⟨"deadline exceeded", by simp [h, watchLoop]⟩
  | succ k ih =>
    have hn : satisfies targetState (observe n target) = false :=
      hpend n (Nat.le_refl n) (by omega)
    have hmem1 := mem_pollPending targetState (observe n) pending target hmem hn
    have hne := isEmpty_eq_false_of_mem _ target hmem1
    obtain ⟨message, hloop⟩ := ih (n + 1) (pollPending targetState (observe n) pending) hmem1
      (fun i h1 h2 => hpend i (by omega) (by omega))
    refine ⟨message, ?_⟩
    simp only [List.replicate_succ, List.cons_append, watchLoop, hne]
    exact hloop

/-- C12: when a registered target stays pending through the first poll and the
k polls that follow, and the cancellation signal of the caller (cancelled or
deadline expired) or the configured timeout comes next, `Watch` returns an
error of type `ContextClosedError`: not nil, and no error of another type. -/
theorem Watch_pending_returns_ContextClosedError (pt : Tracker)
    (observe : Nat → Target → Observation) (targetState : State) (target : Target)
    (k : Nat) (stop : WatchEvent) (rest : List WatchEvent)
    (hstop : stop = WatchEvent.ctxDone ∨ stop = WatchEvent.timeout)
    (hmem : target ∈ pt.targets)
    (hpend : ∀ i, i ≤ k → satisfies targetState (observe i target) = false) :
    ∃ err, pt.Watch observe (List.replicate k WatchEvent.tick ++ stop :: rest) targetState
        = WatchOutcome.returned (some err) ∧
      err.typ = "*error.ContextClosedError" := by
  have h0 : satisfies targetState (observe 0 target) = false := hpend 0 (Nat.zero_le k)
  have hmem1 := mem_pollPending targetState (observe 0) pt.targets target hmem h0
  have hne := isEmpty_eq_false_of_mem _ target hmem1
  obtain ⟨message, hloop⟩ := watchLoop_pending targetState observe target stop rest hstop k 1
    (pollPending targetState (observe 0) pt.targets) hmem1
    (fun i _ h2 => hpend i (by omega))
  refine ⟨ContextClosedError message, ?_, rfl⟩
  simp only [Tracker.Watch, hne]
  exact hloop

/-- C12 at a concrete input: a pod that is never ready, one tick and then the
cancellation signal end the watch with an error of type
`ContextClosedError`. -/
theorem Watch_pending_returns_ContextClosedError_witness :
    ∃ err, Sample.tracker.Watch Sample.podNeverReady
        [WatchEvent.tick, WatchEvent.ctxDone] State.ReadyState
        = WatchOutcome.returned (some err) ∧
      err.typ = "*error.ContextClosedError" :=
  Watch_pending_returns_ContextClosedError Sample.tracker Sample.podNeverReady State.ReadyState
    Sample.pod 1 WatchEvent.ctxDone [] (Or.inl rfl) (by decide) (fun _ _ => rfl)

end progress

/-! ## Nested configuration maps -/

namespace strings

theorem splitChars_ne_nil (sep : Char) (cs : List Char) : splitChars sep cs ≠ [] := by
  cases cs with
  | nil => simp [splitChars]
  | cons c rest =>
    unfold splitChars
    by_cases h : c = sep
    · simp [h]
    · rw [if_neg h]
      cases splitChars sep rest <;> simp

/-- The pieces joined by the separator give the text back. -/
theorem splitChars_intercalate (sep : Char) (cs : List Char) :
    List.intercalate [sep] (splitChars sep cs) = cs := by
  induction cs with
  | nil => rfl
  | cons c rest ih =>
    unfold splitChars
    by_cases h : c = sep
    · rw [if_pos h]
      cases hs : splitChars sep rest with
      | nil => exact absurd hs (splitChars_ne_nil sep rest)
      | cons token tokens =>
        rw [hs] at ih
        simp only [List.intercalate, List.intersperse, List.flatten, List.nil_append] at ih ⊢
        rw [h]
        simpa using ih
    · rw [if_neg h]
      cases hs : splitChars sep rest with
      | nil => exact absurd hs (splitChars_ne_nil sep rest)
      | cons token tokens =>
        rw [hs] at ih
        cases tokens with
        | nil =>
          simp only [List.intercalate, List.intersperse, List.flatten, List.append_nil] at ih ⊢
          rw [← ih]
        | cons token2 tokens2 =>
          simp only [List.intercalate, List.intersperse] at ih ⊢
          rw [← ih]
          rfl

/-- A text without the separator is its own single piece. -/
theorem splitChars_of_not_mem (sep : Char) (cs : List Char) (h : sep ∉ cs) :
    splitChars sep cs = [cs] := by
  induction cs with
  | nil => rfl
  | cons c rest ih =>
    have hc : ¬ c = sep := fun e => h (by simp [e])
    have hr : sep ∉ rest := fun e => h (List.mem_cons_of_mem c e)
    unfold splitChars
    rw [if_neg hc, ih hr]

theorem Split_ne_nil (s : String) (sep : Char) : Split s sep ≠ [] := by
  unfold Split
  intro h
  exact splitChars_ne_nil sep s.toList (List.map_eq_nil_iff.mp h)

theorem Split_of_not_mem (s : String) (sep : Char) (h : sep ∉ s.toList) : Split s sep = [s] := by
  unfold Split
  rw [splitChars_of_not_mem sep s.toList h]
  rfl

end strings

namespace chart

theorem Heap.store_of_empty {α : Type} (heap : Heap α) (addr : Nat) (key : String) (e : Entry α)
    (h : heap[addr]? = some []) : heap.store addr key e = some (heap.set addr [(key, e)]) := by
  simp [Heap.store, h, GoMap.store]

theorem Heap.load_of_single {α : Type} (heap : Heap α) (addr : Nat) (key : String) (e : Entry α)
    (h : heap[addr]? = some [(key, e)]) : heap.load addr key = some e := by
  simp [Heap.load, h, GoMap.load, List.lookup]

theorem lt_length_of_getElem?_eq_some {α : Type} (heap : Heap α) (addr : Nat) (m : GoMap α)
    (h : heap[addr]? = some m) : addr < heap.length := by
  by_contra hlt
  rw [List.getElem?_eq_none (Nat.le_of_not_lt hlt)] at h
  cases h

/-- The loop of `convertToNestedMap`, started on an empty map at `lastNestedMap`
with at least one token to go, does not panic, builds a chain along the tokens
from that map on, and leaves every other map that existed as it was. -/
theorem nestLoop_chain {α : Type} (value : α) (len : Nat) (tokens : List String) :
    ∀ (depth : Nat) (heap : Heap α) (lastNestedMap : Nat), tokens ≠ [] →
      depth + tokens.length = len → heap[lastNestedMap]? = some [] →
      ∃ heap1 last1, nestLoop value len depth tokens heap lastNestedMap = some (heap1, last1) ∧
        IsChain heap1 value lastNestedMap tokens ∧
        ∀ addr, addr < heap.length → addr ≠ lastNestedMap → heap1[addr]? = heap[addr]? := by
  induction tokens with
  | nil => intro depth heap lastNestedMap hne; exact absurd rfl hne
  | cons token rest ih =>
    intro depth heap lastNestedMap _ hlen hempty
    have hlt := lt_length_of_getElem?_eq_some heap lastNestedMap [] hempty
    cases rest with
    | nil =>
      have hd : (depth : Int) = (len : Int) - 1 := by
        simp only [List.length_cons, List.length_nil] at hlen
        omega
      refine ⟨heap.set lastNestedMap [(token, Entry.value value)], lastNestedMap, ?_, ?_, ?_⟩
      · simp only [nestLoop, if_pos hd, Heap.store_of_empty heap lastNestedMap token _ hempty]
      · simp only [IsChain]
        rw [List.getElem?_set_self hlt]
      · intro addr _ hne
        rw [List.getElem?_set_ne (Ne.symm hne)]
    | cons next rest1 =>
      have hd : ¬ (depth : Int) = (len : Int) - 1 := by
        simp only [List.length_cons] at hlen
        omega
      have h1 : (heap ++ [([] : GoMap α)])[lastNestedMap]? = some [] := by
        rw [List.getElem?_append_left hlt]
        exact hempty
      have hstore := Heap.store_of_empty (heap ++ [([] : GoMap α)]) lastNestedMap token
        (Entry.mapRef heap.length) h1
      have hlt1 : lastNestedMap < (heap ++ [([] : GoMap α)]).length := by
        rw [List.length_append]
        exact Nat.lt_add_right _ hlt
      have h2 : ((heap ++ [([] : GoMap α)]).set lastNestedMap
          [(token, Entry.mapRef heap.length)])[lastNestedMap]?
          = some [(token, Entry.mapRef heap.length)] := by
        rw [List.getElem?_set_self hlt1]
      have hload := Heap.load_of_single _ lastNestedMap token (Entry.mapRef heap.length) h2
      have hfresh : ((heap ++ [([] : GoMap α)]).set lastNestedMap
          [(token, Entry.mapRef heap.length)])[heap.length]? = some [] := by
        rw [List.getElem?_set_ne (Nat.ne_of_lt hlt)]
        simp
      obtain ⟨heap1, last1, hloop, hchain, hkeep⟩ :=
        ih (depth + 1) _ heap.length (List.cons_ne_nil next rest1)
          (by simp only [List.length_cons] at hlen ⊢; omega) hfresh
      refine ⟨heap1, last1, ?_, ?_, ?_⟩
      · simp only [nestLoop, if_neg hd, Heap.make, hstore, hload]
        exact hloop
      · refine ⟨heap.length, ?_, hchain⟩
        rw [hkeep lastNestedMap (by rw [List.length_set]; exact hlt1) (Nat.ne_of_lt hlt)]
        exact h2
      · intro addr haddr hne
        rw [hkeep addr (by rw [List.length_set, List.length_append]; exact Nat.lt_add_right _ haddr)
          (Nat.ne_of_lt haddr), List.getElem?_set_ne (Ne.symm hne),
          List.getElem?_append_left haddr]

/-- Along a chain the lookups token by token end in the value, and every map
visited has one entry. -/
theorem lookupPath_of_IsChain {α : Type} (heap : Heap α) (value : α) (tokens : List String) :
    ∀ addr, IsChain heap value addr tokens →
      lookupPath heap addr tokens = some (Entry.value value) ∧
      pathSizes heap addr tokens = List.replicate tokens.length 1 := by
  induction tokens with
  | nil => intro addr h; exact absurd h (by simp [IsChain])
  | cons token rest ih =>
    intro addr h
    cases rest with
    | nil =>
      simp only [IsChain] at h
      refine ⟨?_, ?_⟩
      · simp only [lookupPath]
        exact Heap.load_of_single heap addr token _ h
      · simp [pathSizes, List.getD, h]
    | cons next rest1 =>
      simp only [IsChain] at h
      obtain ⟨child, hmap, hchain⟩ := h
      have hload := Heap.load_of_single heap addr token _ hmap
      obtain ⟨hl, hs⟩ := ih child hchain
      refine ⟨?_, ?_⟩
      · simp only [lookupPath, hload]
        exact hl
      · simp only [pathSizes, hload, hs]
        simp [List.getD, hmap, List.replicate_succ]

/-- C11: for every key and value `convertToNestedMap` returns a map that is the
first of a chain of single-entry maps along the tokens of the key split at the
dots (of which there is at least one): looking up the first token, then the
second, and so on to the last yields the value, and every map on that path has
exactly one entry. A key without a dot becomes the one map with the key
itself bound to the value. -/
theorem convertToNestedMap_chain {α : Type} (key : String) (value : α) :
    (∃ heap root, convertToNestedMap key value = some (heap, root) ∧
      strings.Split key '.' ≠ [] ∧
      IsChain heap value root (strings.Split key '.') ∧
      lookupPath heap root (strings.Split key '.') = some (Entry.value value) ∧
      pathSizes heap root (strings.Split key '.')
        = List.replicate (strings.Split key '.').length 1) ∧
    ('.' ∉ key.toList →
      convertToNestedMap key value = some ([[(key, Entry.value value)]], 0)) := by
  have hne := strings.Split_ne_nil key '.'
  obtain ⟨heap1, last1, hloop, hchain, -⟩ :=
    nestLoop_chain value (strings.Split key '.').length (strings.Split key '.') 0
      (Heap.make ([] : Heap α)).1 (Heap.make ([] : Heap α)).2 hne (Nat.zero_add _) rfl
  have hconv : convertToNestedMap key value = some (heap1, (Heap.make ([] : Heap α)).2) := by
    simp only [convertToNestedMap, hloop]
  obtain ⟨hlookup, hsizes⟩ := lookupPath_of_IsChain heap1 value _ _ hchain
  refine ⟨⟨heap1, _, hconv, hne, hchain, hlookup, hsizes⟩, ?_⟩
  intro hdot
  have hsplit := strings.Split_of_not_mem key '.' hdot
  rw [hsplit] at hchain
  have hheap : heap1 = [[(key, Entry.value value)]] := by
    have hl : nestLoop value (strings.Split key '.').length 0 (strings.Split key '.')
        (Heap.make ([] : Heap α)).1 (Heap.make ([] : Heap α)).2
        = some ([[(key, Entry.value value)]], 0) := by
      rw [hsplit]
      simp [nestLoop, Heap.make, Heap.store, GoMap.store]
    rw [hl] at hloop
    exact ((Prod.mk.inj (Option.some.inj hloop)).1).symm
  rw [hconv, hheap]
  rfl

/-- C11 at the inputs of the source comment: a.b.c=value becomes
[a:[b:[c:value]]] (the maps at the addresses 0, 1, 2), and a key without dots
becomes [key:value]. -/
theorem convertToNestedMap_chain_witness :
    convertToNestedMap "a.b.c" (7 : Nat)
        = some ([[("a", Entry.mapRef 1)], [("b", Entry.mapRef 2)], [("c", Entry.value 7)]], 0) ∧
      convertToNestedMap "key" (7 : Nat) = some ([[("key", Entry.value 7)]], 0) :=
  ⟨by decide, (convertToNestedMap_chain "key" (7 : Nat)).2 (by decide)⟩

end chart

end Reconciler
